import Mathlib

set_option maxRecDepth 100000

/-!
A verification development for the Typescala interpreter (a tokenizer, a
recursive-descent parser, and a tree-walking evaluator written in
TypeScript).  The TypeScript sources are shallowly embedded below:

* JavaScript numbers are embedded as unnormalized rationals (`Q` below,
  an integer numerator with a natural denominator).  Every numeric value
  exercised by the theorems in this file is one on which double-precision
  and exact rational arithmetic agree.  A zero denominator plays the role
  of a non-finite number (`Number.isFinite` returning `false`).
* Mutable `Environment` objects, range iterators and canvas pixel buffers
  are reference values in the source, so they live in explicit stores
  (`EvalState` below) and values refer to them by index.
* Fallible code returns `Except String`, carrying the message of the
  JavaScript `Error` that the source throws.
* All recursion that is not structurally decreasing in the source is
  fuel-indexed, so that every definition is executable and kernel-reducible.
-/

/-! ## Numbers: unnormalized rationals standing in for JavaScript doubles -/

/-- A JavaScript number, embedded as an unnormalized rational `n / d`.
A denominator of `0` marks a non-finite number. -/
structure Q where
  n : Int
  d : Nat
deriving DecidableEq, Repr

/-- The integer `z` as a `Q`. -/
def Q.ofInt (z : Int) : Q := ⟨z, 1⟩

def Q.isFinite (a : Q) : Bool := a.d ≠ 0

def Q.add (a b : Q) : Q := ⟨a.n * b.d + b.n * a.d, a.d * b.d⟩

def Q.sub (a b : Q) : Q := ⟨a.n * b.d - b.n * a.d, a.d * b.d⟩

def Q.mul (a b : Q) : Q := ⟨a.n * b.n, a.d * b.d⟩

/-- Division.  Division by zero produces a non-finite result (denominator
zero), mirroring JavaScript division producing an infinity or NaN. -/
def Q.div (a b : Q) : Q :=
  if b.n < 0 then ⟨a.n * b.d * (-1), a.d * b.n.natAbs⟩
  else ⟨a.n * b.d, a.d * b.n.natAbs⟩

/-- Cross-multiplied comparison: `a / b ≤ c / d ↔ a*d ≤ c*b` for positive
denominators. -/
def Q.le (a b : Q) : Bool := a.n * b.d ≤ b.n * a.d

def Q.lt (a b : Q) : Bool := a.n * b.d < b.n * a.d

/-- Value equality (`===` on numbers): cross-multiplied. -/
def Q.eq (a b : Q) : Bool := a.n * b.d = b.n * a.d

/-- `Math.floor`, as floor division of the numerator by the denominator. -/
def Q.floor (a : Q) : Int := Int.fdiv a.n a.d

/-- `Math.round`: round half up, i.e. `floor (x + 1/2)`. -/
def Q.round (a : Q) : Int := (a.add ⟨1, 2⟩).floor

/-! ## Tokens (src/token.ts) -/

inductive TokType where
  | number
  | str
  | identifier
  | kwLet
  | kwIf
  | kwElse
  | kwTrue
  | kwFalse
  | kwNull
  | kwFor
  | kwIn
  | arrow
  | assign
  | comma
  | lparen
  | rparen
  | lbrace
  | rbrace
  | newline
  | eof
deriving DecidableEq, Repr

/-- A token: type, optional literal text (empty when absent), source
offset. -/
structure Token where
  type : TokType
  value : String := ""
  position : Nat := 0
deriving DecidableEq, Repr

/-! ## Tokenizer (src/lexer.ts, `tokenize`)

The lexer in the snapshot predates the `for` loop and range features that
the current interpreter (`evaluateForStatement`, `rangeExclusive` /
`rangeInclusive` method registrations) and the test suite exercise; the
token kinds `for` / `in` and the `..` / `...` punctuation are therefore
modelled from the spec where marked below.  Everything else is a direct
translation of `tokenize`. -/

/-- The keyword table of the lexer.  `for` and `in` are modelled from the
spec (grammar surface: keywords `let if else true false null for in`). -/
def keywordTok (s : String) : Option TokType :=
  if s = "let" then some .kwLet
  else if s = "if" then some .kwIf
  else if s = "else" then some .kwElse
  else if s = "true" then some .kwTrue
  else if s = "false" then some .kwFalse
  else if s = "null" then some .kwNull
  else if s = "for" then some .kwFor
  else if s = "in" then some .kwIn
  else none

def isWhitespace (c : Char) : Bool := c = ' ' ∨ c = '\t' ∨ c = '\r'

def isDigit (c : Char) : Bool := '0' ≤ c ∧ c ≤ '9'

def isIdentifierStart (c : Char) : Bool :=
  ('a' ≤ c ∧ c ≤ 'z') ∨ ('A' ≤ c ∧ c ≤ 'Z') ∨ c = '_'

def isIdentifierPart (c : Char) : Bool := isIdentifierStart c ∨ isDigit c

/-- Split off the longest prefix whose characters satisfy `p`. -/
def spanP (p : Char → Bool) : List Char → List Char × List Char
  | [] => ([], [])
  | c :: rest =>
    if p c then
      let (a, b) := spanP p rest
      (c :: a, b)
    else ([], c :: rest)

/-- The string-literal loop of the lexer: consume characters up to the
closing quote, translating `\n` and `\t` and passing any other escaped
character through.  `none` is an unterminated literal (a lone trailing
backslash also runs off the end of the input in the source). -/
def lexStr : List Char → Option (List Char × List Char)
  | [] => none
  | '"' :: rest => some ([], rest)
  | '\\' :: [] => none
  | '\\' :: e :: rest =>
    (lexStr rest).map fun r =>
      ((if e = 'n' then '\n' else if e = 't' then '\t' else e) :: r.1, r.2)
  | c :: rest => (lexStr rest).map fun r => (c :: r.1, r.2)

/-- Lex a number literal starting at a digit: digits, then an optional
fractional part when a `.` is immediately followed by a digit. -/
def lexNumber (src : List Char) : List Char × List Char :=
  let (digits, rest) := spanP isDigit src
  match rest with
  | '.' :: d :: rest2 =>
    if isDigit d then
      let (frac, rest3) := spanP isDigit (d :: rest2)
      (digits ++ '.' :: frac, rest3)
    else (digits, rest)
  | _ => (digits, rest)

/-- One pass of the tokenizer loop, fuel-indexed (every step of the source
loop consumes at least one character, so `length + 1` fuel suffices). -/
def lexAux : Nat → List Char → Nat → Except String (List Token)
  | 0, _, _ => .error "lexer out of fuel"
  | fuel + 1, src, pos =>
    match src with
    | [] => .ok [⟨.eof, "", pos⟩]
    | c :: rest =>
      if c = '\n' then
        (lexAux fuel rest (pos + 1)).map (⟨.newline, "", pos + 1⟩ :: ·)
      else if isWhitespace c then
        lexAux fuel rest (pos + 1)
      else if c = '/' ∧ rest.head? = some '/' then
        let (skipped, rest2) := spanP (fun ch => ch ≠ '\n') (c :: rest)
        lexAux fuel rest2 (pos + skipped.length)
      else if c = '+' then
        (lexAux fuel rest (pos + 1)).map (⟨.identifier, "plus", pos + 1⟩ :: ·)
      else if c = '-' then
        (lexAux fuel rest (pos + 1)).map (⟨.identifier, "minus", pos + 1⟩ :: ·)
      else if c = '*' then
        (lexAux fuel rest (pos + 1)).map (⟨.identifier, "times", pos + 1⟩ :: ·)
      else if c = '/' then
        (lexAux fuel rest (pos + 1)).map (⟨.identifier, "dividedBy", pos + 1⟩ :: ·)
      else if c = '<' then
        if rest.head? = some '=' then
          (lexAux fuel rest.tail (pos + 2)).map
            (⟨.identifier, "lessThanOrEqual", pos + 2⟩ :: ·)
        else
          (lexAux fuel rest (pos + 1)).map (⟨.identifier, "lessThan", pos + 1⟩ :: ·)
      else if c = '>' then
        if rest.head? = some '=' then
          (lexAux fuel rest.tail (pos + 2)).map
            (⟨.identifier, "greaterThanOrEqual", pos + 2⟩ :: ·)
        else
          (lexAux fuel rest (pos + 1)).map (⟨.identifier, "greaterThan", pos + 1⟩ :: ·)
      else if c = '=' ∧ rest.head? = some '=' then
        (lexAux fuel rest.tail (pos + 2)).map (⟨.identifier, "equals", pos + 2⟩ :: ·)
      else if c = '"' then
        match lexStr rest with
        | none => .error "Unterminated string literal"
        | some (value, rest2) =>
          let consumed := src.length - rest2.length
          (lexAux fuel rest2 (pos + consumed)).map
            (⟨.str, String.mk value, pos + consumed⟩ :: ·)
      else if isDigit c then
        let (lexeme, rest2) := lexNumber src
        (lexAux fuel rest2 (pos + lexeme.length)).map
          (⟨.number, String.mk lexeme, pos + lexeme.length⟩ :: ·)
      else if isIdentifierStart c then
        let (lexeme, rest2) := spanP isIdentifierPart src
        let s := String.mk lexeme
        (lexAux fuel rest2 (pos + lexeme.length)).map
          ((match keywordTok s with
            | some kw => ⟨kw, "", pos + lexeme.length⟩
            | none => ⟨.identifier, s, pos + lexeme.length⟩) :: ·)
      else if c = '=' ∧ rest.head? = some '>' then
        (lexAux fuel rest.tail (pos + 2)).map (⟨.arrow, "", pos + 2⟩ :: ·)
      else if c = '.' then
        -- Modelled from the spec: the range punctuation `..` / `...` is
        -- emitted as an identifier token carrying the corresponding
        -- named-method string, like the other operator punctuation marks
        -- (grammar surface punctuation `.. ...`; range iterators `a..b`
        -- exclusive / `a...b` inclusive via the `rangeExclusive` /
        -- `rangeInclusive` methods).
        match rest with
        | '.' :: '.' :: rest2 =>
          (lexAux fuel rest2 (pos + 3)).map
            (⟨.identifier, "rangeInclusive", pos + 3⟩ :: ·)
        | '.' :: rest2 =>
          (lexAux fuel rest2 (pos + 2)).map
            (⟨.identifier, "rangeExclusive", pos + 2⟩ :: ·)
        | _ => .error "Unexpected character"
      else if c = '=' then
        (lexAux fuel rest (pos + 1)).map (⟨.assign, "", pos + 1⟩ :: ·)
      else if c = ',' then
        (lexAux fuel rest (pos + 1)).map (⟨.comma, "", pos + 1⟩ :: ·)
      else if c = '(' then
        (lexAux fuel rest (pos + 1)).map (⟨.lparen, "", pos + 1⟩ :: ·)
      else if c = ')' then
        (lexAux fuel rest (pos + 1)).map (⟨.rparen, "", pos + 1⟩ :: ·)
      else if c = '{' then
        (lexAux fuel rest (pos + 1)).map (⟨.lbrace, "", pos + 1⟩ :: ·)
      else if c = '}' then
        (lexAux fuel rest (pos + 1)).map (⟨.rbrace, "", pos + 1⟩ :: ·)
      else .error "Unexpected character"

/-- `tokenize`: source text to a token list ending in an `eof` token, or a
syntax error. -/
def tokenize (source : String) : Except String (List Token) :=
  lexAux (source.length + 1) source.data 0

/-- `Number(token.value)` on the digit strings the lexer produces. -/
def digitsToNat (cs : List Char) : Nat :=
  cs.foldl (fun acc c => acc * 10 + (c.toNat - 48)) 0

/-- Parse a number literal (digits with an optional single fractional
part) into a rational. -/
def parseNumberLit (s : String) : Q :=
  let (intPart, rest) := spanP (fun c => c ≠ '.') s.data
  match rest with
  | '.' :: frac =>
    ⟨(digitsToNat intPart * 10 ^ frac.length + digitsToNat frac : Nat),
      10 ^ frac.length⟩
  | _ => ⟨(digitsToNat intPart : Nat), 1⟩

/-! ## AST (src/ast.ts)

The statement variants are Let, Assignment, For, Expression; the For
variant (iterator name, iterable expression, body block) is imported and
evaluated by the current interpreter although the snapshot of `ast.ts`
predates it, so its shape follows the data-model section of the spec. -/

mutual
inductive Expr where
  | num (value : Q)
  | strE (value : String)
  | boolE (value : Bool)
  | nullE
  | identE (name : String)
  | fnE (params : List String) (body : Blk)
  | call (callee : Expr) (args : List Expr)
  | blockE (b : Blk)
  | blockFn (b : Blk)
  | ifE (condition : Expr) (thenBranch : Blk) (elseBranch : Option Blk)
  | infixOp (operator : String) (left right : Expr)

inductive Stmt where
  | letS (name : String) (value : Expr)
  | assignS (name : String) (value : Expr)
  | forS (iterator : String) (iterable : Expr) (body : Blk)
  | exprS (e : Expr)

inductive Blk where
  | mk (statements : List Stmt) (asFunction : Bool)
end

def Blk.statements : Blk → List Stmt
  | .mk s _ => s

/-! ## Parser (src/parser.ts)

A direct translation of the recursive-descent parser.  The token cursor
is a token list plus a position, exactly as in the source; parsing
functions thread the cursor.  The mutually recursive parsing functions
are combined into one fuel-indexed function `parseF` over a task type, so
that the definition is structurally recursive and executable.

The `consume` error message in the source also carries the offending
token type and position; the embedding keeps just the fixed message
text. -/

structure Cursor where
  tokens : List Token
  position : Nat
deriving Repr

/-- Out-of-range token access (never reached on lexer output, which ends
in an `eof` sentinel). -/
def eofFallback : Token := ⟨.eof, "", 0⟩

def Cursor.current (c : Cursor) : Token := c.tokens.getD c.position eofFallback

/-- The cursor after `advance`. -/
def Cursor.adv (c : Cursor) : Cursor := { c with position := c.position + 1 }

def Cursor.checkT (c : Cursor) (t : TokType) : Bool := c.current.type = t

def consumeT (c : Cursor) (t : TokType) (message : String) :
    Except String (Token × Cursor) :=
  if c.current.type = t then .ok (c.current, c.adv) else .error message

def skipNLAux : List Token → Nat → Nat
  | [], p => p
  | t :: rest, p => if t.type = .newline then skipNLAux rest (p + 1) else p

def Cursor.skipNewlines (c : Cursor) : Cursor :=
  { c with position := skipNLAux (c.tokens.drop c.position) c.position }

/-- The fixed known-operator set consumed by infix parsing.  The two
range operators are modelled from the spec (range iterators `a..b` /
`a...b` are produced by the `rangeExclusive` / `rangeInclusive` methods of
the one flat operator namespace); the snapshot of the set predates
them. -/
def INFIX_OPERATORS : List String :=
  ["plus", "minus", "times", "dividedBy", "equals", "lessThan",
   "lessThanOrEqual", "greaterThan", "greaterThanOrEqual", "and", "or",
   "rangeExclusive", "rangeInclusive"]

/-- The forward scan of `isFunctionSignature`, processing the token at
the scan index and moving right.  `depth` can only be `0` or `1`, because
a nested `(` (depth about to exceed `1`) aborts with `false`; hence the
`rparen` case at positive depth is always the `foundClosing && depth === 0`
exit of the source loop, and reports whether the very next token is the
arrow. -/
def isFnSigScan : List Token → Nat → Bool → Bool
  | [], _, _ => false
  | t :: rest, depth, expectsParam =>
    match t.type with
    | .lparen =>
      if depth + 1 > 1 then false else isFnSigScan rest (depth + 1) expectsParam
    | .rparen =>
      if depth = 0 then false
      else
        match rest with
        | next :: _ => next.type = .arrow
        | [] => false
    | .comma => isFnSigScan rest depth true
    | .identifier => if expectsParam then isFnSigScan rest depth false else false
    | _ => false

/-- `isFunctionSignature`: decide between a lambda parameter list and a
parenthesized expression by scanning forward from the current position.
Every return path of the source restores `cursor.position` to its starting
value, so the function returns the cursor unchanged alongside the
verdict. -/
def isFunctionSignature (c : Cursor) : Bool × Cursor :=
  if c.checkT .lparen then
    (isFnSigScan (c.tokens.drop c.position) 0 true, c)
  else (false, c)

def createBlockFromExpression (e : Expr) : Blk := .mk [.exprS e] false

/-- The tasks of the combined parsing function: one per parsing function
of the source, plus one per in-function loop. -/
inductive PTask where
  | statements (stopAtBrace : Bool) (acc : List Stmt)
  | statement
  | expression
  | infixLoop (left : Expr)
  | callE
  | callLoop (e : Expr)
  | callArgs (acc : List Expr)
  | primary
  | params (acc : List String)
  | fnBody
  | ifTail
  | blockB (asFunction : Bool)

inductive PRes where
  | expr (e : Expr)
  | stmt (s : Stmt)
  | stmts (l : List Stmt)
  | blk (b : Blk)
  | exprs (l : List Expr)
  | names (l : List String)

/-- The recursive-descent parser.  Each task mirrors one function or loop
of the source parser; see the task-by-task comments. -/
def parseF : Nat → PTask → Cursor → Except String (PRes × Cursor)
  | 0, _, _ => .error "parser out of fuel"
  | fuel + 1, task, c =>
    match task with
    -- the statement loops of parseProgram (stopAtBrace = false) and
    -- parseBlockWithConsumedBrace (stopAtBrace = true)
    | .statements stop acc =>
      let c := c.skipNewlines
      if stop then
        if c.checkT .rbrace then
          match consumeT c .rbrace "Expected \x7d to close block" with
          | .error e => .error e
          | .ok (_, c) => .ok (.stmts acc.reverse, c)
        else do
          let (r, c) ← parseF fuel .statement c
          match r with
          | .stmt s => parseF fuel (.statements stop (s :: acc)) c
          | _ => .error "internal"
      else
        if c.checkT .eof then .ok (.stmts acc.reverse, c)
        else do
          let (r, c) ← parseF fuel .statement c
          match r with
          | .stmt s => parseF fuel (.statements stop (s :: acc)) c
          | _ => .error "internal"
    -- parseStatement
    | .statement =>
      if c.checkT .kwLet then do
        let (ident, c) ← consumeT c.adv .identifier "Expected identifier after let"
        let (_, c) ← consumeT c .assign "Expected = after identifier"
        let (r, c) ← parseF fuel .expression c
        match r with
        | .expr v => .ok (.stmt (.letS ident.value v), c)
        | _ => .error "internal"
      else if c.checkT .kwFor then do
        -- Modelled from the spec: statement dispatch — a `for` construct
        -- (iterator name, `in`, iterable expression, block) starts a For
        -- statement.  The snapshot of parseStatement predates the For
        -- statement that the current interpreter evaluates.
        let (ident, c) ← consumeT c.adv .identifier "Expected identifier after for"
        let (_, c) ← consumeT c .kwIn "Expected in after iterator name"
        let (r, c) ← parseF fuel .expression c
        match r with
        | .expr iterable => do
          let (rb, c) ← parseF fuel (.blockB false) c
          match rb with
          | .blk body => .ok (.stmt (.forS ident.value iterable body), c)
          | _ => .error "internal"
        | _ => .error "internal"
      else if c.checkT .identifier ∧
          (c.tokens.getD (c.position + 1) eofFallback).type = .assign then do
        let name := c.current.value
        let c := c.adv.adv
        let (r, c) ← parseF fuel .expression c
        match r with
        | .expr v => .ok (.stmt (.assignS name v), c)
        | _ => .error "internal"
      else do
        let (r, c) ← parseF fuel .expression c
        match r with
        | .expr e => .ok (.stmt (.exprS e), c)
        | _ => .error "internal"
    -- parseExpression = parseInfix: a call-level expression, then the
    -- operator loop
    | .expression => do
      let (r, c) ← parseF fuel .callE c
      match r with
      | .expr e => parseF fuel (.infixLoop e) c
      | _ => .error "internal"
    -- the while loop of parseInfix
    | .infixLoop left =>
      if c.checkT .identifier && INFIX_OPERATORS.contains c.current.value then do
        let op := c.current.value
        let (r, c) ← parseF fuel .callE c.adv
        match r with
        | .expr right => parseF fuel (.infixLoop (.infixOp op left right)) c
        | _ => .error "internal"
      else .ok (.expr left, c)
    -- parseCall
    | .callE => do
      let (r, c) ← parseF fuel .primary c
      match r with
      | .expr e => parseF fuel (.callLoop e) c
      | _ => .error "internal"
    -- the suffix loop of parseCall
    | .callLoop e =>
      if c.checkT .lparen then
        let c := c.adv
        if c.checkT .rparen then
          parseF fuel (.callLoop (.call e [])) c.adv
        else do
          let (r, c) ← parseF fuel (.callArgs []) c
          match r with
          | .exprs args => do
            let (_, c) ← consumeT c .rparen "Expected ) to close arguments"
            parseF fuel (.callLoop (.call e args)) c
          | _ => .error "internal"
      else if c.checkT .lbrace then
        match e with
        | .call callee args => do
          let (r, c) ← parseF fuel (.blockB true) c
          match r with
          | .blk blockArg =>
            parseF fuel (.callLoop (.call callee (args ++ [.blockFn blockArg]))) c
          | _ => .error "internal"
        | _ => .ok (.expr e, c)
      else .ok (.expr e, c)
    -- the do/while argument loop of parseCall
    | .callArgs acc => do
      let (r, c) ← parseF fuel .expression c
      match r with
      | .expr e =>
        let acc := e :: acc
        if c.checkT .comma then parseF fuel (.callArgs acc) c.adv
        else .ok (.exprs acc.reverse, c)
      | _ => .error "internal"
    -- parsePrimary
    | .primary =>
      if c.checkT .number then
        .ok (.expr (.num (parseNumberLit c.current.value)), c.adv)
      else if c.checkT .str then
        .ok (.expr (.strE c.current.value), c.adv)
      else if c.checkT .kwTrue then .ok (.expr (.boolE true), c.adv)
      else if c.checkT .kwFalse then .ok (.expr (.boolE false), c.adv)
      else if c.checkT .kwNull then .ok (.expr .nullE, c.adv)
      else if c.checkT .identifier then
        .ok (.expr (.identE c.current.value), c.adv)
      else if c.checkT .kwIf then
        parseF fuel .ifTail c.adv
      else if c.checkT .lparen then
        match isFunctionSignature c with
        | (true, c) =>
          let c := c.adv
          if c.checkT .rparen then do
            let (_, c) ← consumeT c .rparen "Expected ) after parameter list"
            let (_, c) ← consumeT c .arrow "Expected => after parameter list"
            let (r, c) ← parseF fuel .fnBody c
            match r with
            | .blk body => .ok (.expr (.fnE [] body), c)
            | _ => .error "internal"
          else do
            let (r, c) ← parseF fuel (.params []) c
            match r with
            | .names params => do
              let (_, c) ← consumeT c .rparen "Expected ) after parameter list"
              let (_, c) ← consumeT c .arrow "Expected => after parameter list"
              let (r2, c) ← parseF fuel .fnBody c
              match r2 with
              | .blk body => .ok (.expr (.fnE params body), c)
              | _ => .error "internal"
            | _ => .error "internal"
        | (false, c) => do
          let c := c.adv
          let (r, c) ← parseF fuel .expression c
          match r with
          | .expr e => do
            let (_, c) ← consumeT c .rparen "Expected ) after expression"
            .ok (.expr e, c)
          | _ => .error "internal"
      else if c.checkT .lbrace then do
        let (r, c) ← parseF fuel (.blockB false) c
        match r with
        | .blk b => .ok (.expr (.blockE b), c)
        | _ => .error "internal"
      else .error "Unexpected token"
    -- the do/while parameter loop of the function-signature branch
    | .params acc => do
      let (tok, c) ← consumeT c .identifier "Expected parameter name"
      let acc := tok.value :: acc
      if c.checkT .comma then parseF fuel (.params acc) c.adv
      else .ok (.names acc.reverse, c)
    -- parseFunctionBody
    | .fnBody =>
      let c := c.skipNewlines
      if c.checkT .lbrace then do
        let (r, c) ← parseF fuel (.blockB false) c
        match r with
        | .blk b => .ok (.blk b, c)
        | _ => .error "internal"
      else do
        let (r, c) ← parseF fuel .expression c
        match r with
        | .expr e => .ok (.blk (createBlockFromExpression e), c)
        | _ => .error "internal"
    -- parseIf, entered with the if token already consumed
    | .ifTail => do
      let (r, c) ← parseF fuel .expression c
      match r with
      | .expr condition =>
        let c := c.skipNewlines
        let thenRes : Except String (Blk × Cursor) :=
          if c.checkT .lbrace then do
            let (r, c) ← parseF fuel (.blockB false) c
            match r with
            | .blk b => .ok (b, c)
            | _ => .error "internal"
          else do
            let (r, c) ← parseF fuel .expression c
            match r with
            | .expr e => .ok (createBlockFromExpression e, c)
            | _ => .error "internal"
        match thenRes with
        | .error e => .error e
        | .ok (thenBranch, c) =>
          let c := c.skipNewlines
          if c.checkT .kwElse then
            let c := c.adv.skipNewlines
            if c.checkT .kwIf then do
              let (r, c) ← parseF fuel .ifTail c.adv
              match r with
              | .expr nested =>
                .ok (.expr (.ifE condition thenBranch
                  (some (createBlockFromExpression nested))), c)
              | _ => .error "internal"
            else if c.checkT .lbrace then do
              let (r, c) ← parseF fuel (.blockB false) c
              match r with
              | .blk b => .ok (.expr (.ifE condition thenBranch (some b)), c)
              | _ => .error "internal"
            else do
              let (r, c) ← parseF fuel .expression c
              match r with
              | .expr e =>
                .ok (.expr (.ifE condition thenBranch
                  (some (createBlockFromExpression e))), c)
              | _ => .error "internal"
          else .ok (.expr (.ifE condition thenBranch none), c)
      | _ => .error "internal"
    -- parseBlock (consumes the opening brace, then the statement loop of
    -- parseBlockWithConsumedBrace, which consumes the closing brace)
    | .blockB asFunction => do
      let (_, c) ← consumeT c .lbrace "Expected \x7b to start block"
      let (r, c) ← parseF fuel (.statements true []) c
      match r with
      | .stmts l => .ok (.blk (.mk l asFunction), c)
      | _ => .error "internal"

/-- `parse`: tokenize, then run the parser from the program task.  The
fuel is generous: every parser step either consumes a token or descends
into a strictly smaller piece of the remaining input. -/
def parse (source : String) : Except String (List Stmt) := do
  let tokens ← tokenize source
  let (r, _) ← parseF (tokens.length * 16 + 16) (.statements false []) ⟨tokens, 0⟩
  match r with
  | .stmts l => .ok l
  | _ => .error "internal"

/-! ## Values and runtime (src/values.ts, src/runtime.ts)

`Environment`s, range iterators and canvas pixel buffers are mutable
reference values; they live in the three stores of `EvalState` and values
hold indices into them.  Native functions are a closed enumeration (the
registry and the global bindings are populated once, at runtime
construction). -/

inductive NativeImpl where
  | numPlus
  | numMinus
  | numTimes
  | numDividedBy
  | numRangeExclusive
  | numRangeInclusive
  | numEquals
  | numLessThan
  | numLessThanOrEqual
  | numGreaterThan
  | numGreaterThanOrEqual
  | strPlus
  | boolAnd
  | boolOr
  | boolEquals
  | printFn
  | whileFn
  | canvasFn
  | canvasWidthFn
  | canvasHeightFn
  | fillCanvasFn
  | setPixelFn
deriving DecidableEq, Repr

inductive Value where
  | number (value : Q)
  | strV (value : String)
  | boolV (value : Bool)
  | nullV
  | userFn (params : List String) (body : Blk) (closure : Nat) (name : Option String)
  | nativeFn (impl : NativeImpl)
  | iterator (idx : Nat)
  | canvasV (idx : Nat)

inductive ValueKind where
  | number
  | stringK
  | boolean
  | nullK
  | functionK
  | iteratorK
  | canvasK
deriving DecidableEq, Repr

def Value.kind : Value → ValueKind
  | .number _ => .number
  | .strV _ => .stringK
  | .boolV _ => .boolean
  | .nullV => .nullK
  | .userFn _ _ _ _ => .functionK
  | .nativeFn _ => .functionK
  | .iterator _ => .iteratorK
  | .canvasV _ => .canvasK

/-- `lookupMethod` against the registry as populated by
`createGlobalEnvironment`: eleven number methods, `plus` on strings,
`and` / `or` / `equals` on booleans; the function, iterator and canvas
method maps stay empty. -/
def lookupMethod (v : Value) (name : String) : Option Value :=
  match v.kind with
  | .number =>
    if name = "plus" then some (.nativeFn .numPlus)
    else if name = "minus" then some (.nativeFn .numMinus)
    else if name = "times" then some (.nativeFn .numTimes)
    else if name = "dividedBy" then some (.nativeFn .numDividedBy)
    else if name = "rangeExclusive" then some (.nativeFn .numRangeExclusive)
    else if name = "rangeInclusive" then some (.nativeFn .numRangeInclusive)
    else if name = "equals" then some (.nativeFn .numEquals)
    else if name = "lessThan" then some (.nativeFn .numLessThan)
    else if name = "lessThanOrEqual" then some (.nativeFn .numLessThanOrEqual)
    else if name = "greaterThan" then some (.nativeFn .numGreaterThan)
    else if name = "greaterThanOrEqual" then some (.nativeFn .numGreaterThanOrEqual)
    else none
  | .stringK => if name = "plus" then some (.nativeFn .strPlus) else none
  | .boolean =>
    if name = "and" then some (.nativeFn .boolAnd)
    else if name = "or" then some (.nativeFn .boolOr)
    else if name = "equals" then some (.nativeFn .boolEquals)
    else none
  | _ => none

/-- Truthiness: null is false, booleans are themselves, a number is false
exactly when it equals 0 (`!==` is numeric comparison), a string is false
exactly when empty, functions and iterators and canvases are true. -/
def isTruthy : Value → Bool
  | .nullV => false
  | .boolV b => b
  | .number q => ¬ Q.eq q ⟨0, 1⟩
  | .strV s => s.length > 0
  | _ => true

/-- `cloneValue`: scalar values are copied, reference values are returned
as-is.  Scalars are immutable data here, so the copy is the identity. -/
def cloneValue (v : Value) : Value := v

def expectNumber (v : Value) (message : String) : Except String Q :=
  match v with
  | .number q => .ok q
  | _ => .error message

def expectBoolean (v : Value) (message : String) : Except String Bool :=
  match v with
  | .boolV b => .ok b
  | _ => .error message

def expectIterator (v : Value) (message : String) : Except String Nat :=
  match v with
  | .iterator idx => .ok idx
  | _ => .error message

def expectCanvas (v : Value) (message : String) : Except String Nat :=
  match v with
  | .canvasV idx => .ok idx
  | _ => .error message

/-- A scope: a name-to-value map plus an optional parent scope (an index
into the scope store). -/
structure Scope where
  values : List (String × Value)
  parent : Option Nat

/-- A canvas: width, height, and a byte buffer of length
`width * height * 4` (RGBA, row-major). -/
structure CanvasData where
  width : Nat
  height : Nat
  pixels : List Nat

/-- The state captured by a range iterator closure: the mutable cursor,
the fixed end, the step (`+1` or `-1`, chosen at creation), and the
inclusive flag. -/
structure RangeIter where
  current : Q
  endV : Q
  step : Q
  inclusive : Bool
deriving DecidableEq, Repr

structure EvalState where
  scopes : List Scope
  canvases : List CanvasData
  iters : List RangeIter

/-! ## Environment (src/environment.ts) -/

/-- `Map.set`: overwrite the binding if the name is present, insert it
otherwise. -/
def scopeSet (vals : List (String × Value)) (name : String) (v : Value) :
    List (String × Value) :=
  match vals with
  | [] => [(name, v)]
  | (k, w) :: rest =>
    if k = name then (k, v) :: rest else (k, w) :: scopeSet rest name v

def scopeGet (vals : List (String × Value)) (name : String) : Option Value :=
  match vals with
  | [] => none
  | (k, w) :: rest => if k = name then some w else scopeGet rest name

def scopeHas (vals : List (String × Value)) (name : String) : Bool :=
  (scopeGet vals name).isSome

/-- Replace the list entry at the given index by `f` applied to it. -/
def setScopes : List Scope → Nat → (Scope → Scope) → List Scope
  | [], _, _ => []
  | sc :: rest, 0, f => f sc :: rest
  | sc :: rest, i + 1, f => sc :: setScopes rest i f

/-- Replace the scope at index `env` by `f` applied to it. -/
def updateScope (st : EvalState) (env : Nat) (f : Scope → Scope) : EvalState :=
  { st with scopes := setScopes st.scopes env f }

/-- `Environment.define`: insert or overwrite in the current scope only. -/
def envDefine (st : EvalState) (env : Nat) (name : String) (v : Value) :
    EvalState :=
  updateScope st env fun sc => { sc with values := scopeSet sc.values name v }

/-- `Environment.assign`: walk outward to the first scope already
defining the name and mutate it there; an unresolved name is a runtime
error.  The parent walk is fuel-indexed; scope-store length always
suffices because every scope's parent index is smaller than its own
index. -/
def envAssign : Nat → EvalState → Nat → String → Value →
    Except String EvalState
  | 0, _, _, _, _ => .error "environment chain out of fuel"
  | fuel + 1, st, env, name, v =>
    match st.scopes.get? env with
    | none => .error "invalid scope"
    | some sc =>
      if scopeHas sc.values name then
        .ok (envDefine st env name v)
      else
        match sc.parent with
        | some p => envAssign fuel st p name v
        | none => .error ("Undefined variable " ++ name)

/-- `Environment.get`: the same outward walk for reads. -/
def envGet : Nat → EvalState → Nat → String → Except String Value
  | 0, _, _, _ => .error "environment chain out of fuel"
  | fuel + 1, st, env, name =>
    match st.scopes.get? env with
    | none => .error "invalid scope"
    | some sc =>
      match scopeGet sc.values name with
      | some v => .ok v
      | none =>
        match sc.parent with
        | some p => envGet fuel st p name
        | none => .error ("Undefined variable " ++ name)

/-- `new Environment(parent)`: append a fresh empty scope and return its
index. -/
def newScope (st : EvalState) (parent : Option Nat) : Nat × EvalState :=
  (st.scopes.length, { st with scopes := st.scopes ++ [⟨[], parent⟩] })

/-! ## Canvas and range-iterator primitives (src/runtime.ts) -/

/-- The freshly created pixel buffer: `n` zero bytes, then every fourth
byte (the alpha channel) set to 255. -/
def mkPixels (n : Nat) : List Nat :=
  (List.range n).map fun i => if i % 4 = 3 then 255 else 0

/-- `makeCanvas`: requires finite dimensions, floors them, requires both
floors strictly positive, and allocates the fully-opaque zeroed buffer. -/
def makeCanvas (w h : Q) : Except String CanvasData :=
  if ¬ w.isFinite ∨ ¬ h.isFinite then
    .error "canvas expects finite width and height"
  else
    let wf := w.floor
    let hf := h.floor
    if wf ≤ 0 ∨ hf ≤ 0 then
      .error "canvas width and height must be positive integers"
    else
      .ok ⟨wf.toNat, hf.toNat, mkPixels (wf.toNat * hf.toNat * 4)⟩

/-- `Math.max(0, Math.min(255, Math.round(x)))`. -/
def clampChannel (q : Q) : Nat := (max 0 (min 255 (Q.round q))).toNat

/-- The fillCanvas loop: every pixel gets the four channel bytes. -/
def fillPixels (pixels : List Nat) (r g b a : Nat) : List Nat :=
  pixels.mapIdx fun i _ =>
    if i % 4 = 0 then r else if i % 4 = 1 then g else if i % 4 = 2 then b else a

/-- `createRangeIterator`: step `+1` when `start ≤ end`, else `-1`. -/
def createRangeIterator (start endV : Q) (inclusive : Bool) : RangeIter :=
  ⟨start, endV, if start.le endV then ⟨1, 1⟩ else ⟨-1, 1⟩, inclusive⟩

/-- One `next()` call on a range iterator: `none` is a done step,
otherwise the step carries the current value and the cursor advances by
the step. -/
def rangeNext (it : RangeIter) : Option Q × RangeIter :=
  if Q.lt ⟨0, 1⟩ it.step then
    if (if it.inclusive then Q.lt it.endV it.current else Q.le it.endV it.current) then
      (none, it)
    else (some it.current, { it with current := it.current.add it.step })
  else
    if (if it.inclusive then Q.lt it.current it.endV else Q.le it.current it.endV) then
      (none, it)
    else (some it.current, { it with current := it.current.add it.step })

/-! ## Native builtins (src/interpreter.ts `createGlobalEnvironment`) -/

/-- `args[i] ?? NULL_VALUE`. -/
def argOr (args : List Value) (i : Nat) : Value := (args.get? i).getD .nullV

/-- The receiver (`self`) of a native method call. -/
def selfVal (thisArg : Option Value) : Value := thisArg.getD .nullV

/-- `String(value)` on the numbers this file exercises (the non-integer
formatting is not JavaScript-exact and no theorem relies on it). -/
def qToString (q : Q) : String :=
  if q.d = 1 then toString q.n else toString q.n ++ " / " ++ toString q.d

/-- Every native implementation except `while`, which re-enters the
evaluator and therefore lives inside `evalF`. -/
def callNative (impl : NativeImpl) (args : List Value) (thisArg : Option Value)
    (st : EvalState) : Except String (Value × EvalState) :=
  match impl with
  | .numPlus => do
    let l ← expectNumber (selfVal thisArg) "plus expects a number as the receiver"
    let r ← expectNumber (argOr args 0) "plus expects a number argument"
    .ok (.number (l.add r), st)
  | .numMinus => do
    let l ← expectNumber (selfVal thisArg) "minus expects a number as the receiver"
    let r ← expectNumber (argOr args 0) "minus expects a number argument"
    .ok (.number (l.sub r), st)
  | .numTimes => do
    let l ← expectNumber (selfVal thisArg) "times expects a number as the receiver"
    let r ← expectNumber (argOr args 0) "times expects a number argument"
    .ok (.number (l.mul r), st)
  | .numDividedBy => do
    let l ← expectNumber (selfVal thisArg) "dividedBy expects a number as the receiver"
    let r ← expectNumber (argOr args 0) "dividedBy expects a number argument"
    .ok (.number (l.div r), st)
  | .numRangeExclusive => do
    let s ← expectNumber (selfVal thisArg) "rangeExclusive expects a number receiver"
    let e ← expectNumber (argOr args 0) "rangeExclusive expects a number argument"
    .ok (.iterator st.iters.length,
      { st with iters := st.iters ++ [createRangeIterator s e false] })
  | .numRangeInclusive => do
    let s ← expectNumber (selfVal thisArg) "rangeInclusive expects a number receiver"
    let e ← expectNumber (argOr args 0) "rangeInclusive expects a number argument"
    .ok (.iterator st.iters.length,
      { st with iters := st.iters ++ [createRangeIterator s e true] })
  | .numEquals => do
    let l ← expectNumber (selfVal thisArg) "equals expects a number as the receiver"
    let r ← expectNumber (argOr args 0) "equals expects a number argument"
    .ok (.boolV (Q.eq l r), st)
  | .numLessThan => do
    let l ← expectNumber (selfVal thisArg) "lessThan expects a number as the receiver"
    let r ← expectNumber (argOr args 0) "lessThan expects a number argument"
    .ok (.boolV (Q.lt l r), st)
  | .numLessThanOrEqual => do
    let l ← expectNumber (selfVal thisArg) "lessThanOrEqual expects a number as the receiver"
    let r ← expectNumber (argOr args 0) "lessThanOrEqual expects a number argument"
    .ok (.boolV (Q.le l r), st)
  | .numGreaterThan => do
    let l ← expectNumber (selfVal thisArg) "greaterThan expects a number as the receiver"
    let r ← expectNumber (argOr args 0) "greaterThan expects a number argument"
    .ok (.boolV (Q.lt r l), st)
  | .numGreaterThanOrEqual => do
    let l ← expectNumber (selfVal thisArg) "greaterThanOrEqual expects a number as the receiver"
    let r ← expectNumber (argOr args 0) "greaterThanOrEqual expects a number argument"
    .ok (.boolV (Q.le r l), st)
  | .strPlus =>
    match selfVal thisArg with
    | .strV s =>
      let v :=
        match argOr args 0 with
        | .strV t => t
        | .number q => qToString q
        | .boolV b => if b then "true" else "false"
        | _ => ""
      .ok (.strV (s ++ v), st)
    | _ => .error "plus expects a string receiver"
  | .boolAnd => do
    let l ← expectBoolean (selfVal thisArg) "and expects a boolean receiver"
    let r ← expectBoolean (argOr args 0) "and expects a boolean argument"
    .ok (.boolV (l && r), st)
  | .boolOr => do
    let l ← expectBoolean (selfVal thisArg) "or expects a boolean receiver"
    let r ← expectBoolean (argOr args 0) "or expects a boolean argument"
    .ok (.boolV (l || r), st)
  | .boolEquals => do
    let l ← expectBoolean (selfVal thisArg) "equals expects a boolean receiver"
    let r ← expectBoolean (argOr args 0) "equals expects a boolean argument"
    .ok (.boolV (l == r), st)
  | .printFn => .ok (.nullV, st)
  | .whileFn => .error "internal while"
  | .canvasFn => do
    let w ← expectNumber (argOr args 0) "canvas expects a width argument"
    let h ← expectNumber (argOr args 1) "canvas expects a height argument"
    let cd ← makeCanvas w h
    .ok (.canvasV st.canvases.length, { st with canvases := st.canvases ++ [cd] })
  | .canvasWidthFn => do
    let idx ← expectCanvas (argOr args 0) "canvasWidth expects a canvas"
    match st.canvases.get? idx with
    | some cd => .ok (.number (Q.ofInt cd.width), st)
    | none => .error "internal canvas"
  | .canvasHeightFn => do
    let idx ← expectCanvas (argOr args 0) "canvasHeight expects a canvas"
    match st.canvases.get? idx with
    | some cd => .ok (.number (Q.ofInt cd.height), st)
    | none => .error "internal canvas"
  | .fillCanvasFn => do
    let idx ← expectCanvas (argOr args 0) "fillCanvas expects a canvas"
    match st.canvases.get? idx with
    | none => .error "internal canvas"
    | some cd => do
      let r ← expectNumber (argOr args 1) "fillCanvas expects a red channel value"
      let g ← expectNumber (argOr args 2) "fillCanvas expects a green channel value"
      let b ← expectNumber (argOr args 3) "fillCanvas expects a blue channel value"
      let a ← match args.get? 4 with
        | some av =>
          (expectNumber av "fillCanvas expects an alpha channel value").map clampChannel
        | none => .ok 255
      let cd2 := { cd with
        pixels := fillPixels cd.pixels (clampChannel r) (clampChannel g) (clampChannel b) a }
      .ok (.canvasV idx, { st with canvases := st.canvases.set idx cd2 })
  | .setPixelFn => do
    let idx ← expectCanvas (argOr args 0) "setPixel expects a canvas as the first argument"
    match st.canvases.get? idx with
    | none => .error "internal canvas"
    | some cd => do
      let xq ← expectNumber (argOr args 1) "setPixel expects an x coordinate"
      let yq ← expectNumber (argOr args 2) "setPixel expects a y coordinate"
      let x := xq.floor
      let y := yq.floor
      if x < 0 ∨ x ≥ (cd.width : Int) ∨ y < 0 ∨ y ≥ (cd.height : Int) then
        .error "setPixel coordinate is out of bounds"
      else do
        let r ← expectNumber (argOr args 3) "setPixel expects a red channel value"
        let g ← expectNumber (argOr args 4) "setPixel expects a green channel value"
        let b ← expectNumber (argOr args 5) "setPixel expects a blue channel value"
        let a ← match args.get? 6 with
          | some av =>
            (expectNumber av "setPixel expects an alpha channel value").map clampChannel
          | none => .ok 255
        let index := (y.toNat * cd.width + x.toNat) * 4
        let px := (((cd.pixels.set index (clampChannel r)).set (index + 1)
          (clampChannel g)).set (index + 2) (clampChannel b)).set (index + 3) a
        .ok (.canvasV idx,
          { st with canvases := st.canvases.set idx { cd with pixels := px } })

/-! ## Evaluator (src/interpreter.ts) -/

/-- `params.forEach((param, index) => define(param, args[index] ?? NULL))`. -/
def bindParams : EvalState → Nat → List String → List Value → EvalState
  | st, _, [], _ => st
  | st, env, p :: ps, [] => bindParams (envDefine st env p .nullV) env ps []
  | st, env, p :: ps, a :: rest => bindParams (envDefine st env p a) env ps rest

/-- The tasks of the combined evaluator: one per evaluation function of
the source, plus one per in-function loop (the statement lists of
programs and blocks, argument-list evaluation, function application, and
the `for` and native-`while` loops). -/
inductive ETask where
  | stmts (l : List Stmt) (lastResult : Value)
  | stmtT (s : Stmt)
  | exprT (e : Expr)
  | exprList (es : List Expr) (acc : List Value)
  | callV (callee : Value) (args : List Value) (thisArg : Option Value)
  | forLoop (iterIdx : Nat) (loopEnv : Nat) (varName : String) (body : Blk)
      (lastResult : Value)
  | whileLoop (conditionV bodyV : Value) (lastResult : Value)

inductive ERes where
  | val (v : Value)
  | vals (vs : List Value)

def ERes.asVal : ERes → Value
  | .val v => v
  | .vals _ => .nullV

def ERes.asVals : ERes → List Value
  | .val _ => []
  | .vals l => l

/-- The tree-walking evaluator, fuel-indexed.  `env` is the index of the
current environment in the scope store. -/
def evalF : Nat → ETask → Nat → EvalState → Except String (ERes × EvalState)
  | 0, _, _, _ => .error "evaluator out of fuel"
  | fuel + 1, task, env, st =>
    match task with
    -- the statement loops of evaluateProgram / evaluateBlock: the value
    -- is the last statement's value, null when empty
    | .stmts [] last => .ok (.val last, st)
    | .stmts (s :: rest) _ => do
      let (r, st) ← evalF fuel (.stmtT s) env st
      evalF fuel (.stmts rest r.asVal) env st
    -- evaluateStatement
    | .stmtT s =>
      match s with
      | .letS name value => do
        let (r, st) ← evalF fuel (.exprT value) env st
        .ok (.val r.asVal, envDefine st env name r.asVal)
      | .assignS name value => do
        let (r, st) ← evalF fuel (.exprT value) env st
        let st ← envAssign st.scopes.length st env name r.asVal
        .ok (.val r.asVal, st)
      | .forS iterName iterable body => do
        let (r, st) ← evalF fuel (.exprT iterable) env st
        let iterIdx ← expectIterator r.asVal "for expects an iterator iterable"
        let (loopEnv, st) := newScope st (some env)
        let st := envDefine st loopEnv iterName .nullV
        evalF fuel (.forLoop iterIdx loopEnv iterName body .nullV) env st
      | .exprS e => evalF fuel (.exprT e) env st
    -- evaluateExpression
    | .exprT e =>
      match e with
      | .num v => .ok (.val (.number v), st)
      | .strE s => .ok (.val (.strV s), st)
      | .boolE b => .ok (.val (.boolV b), st)
      | .nullE => .ok (.val .nullV, st)
      | .identE name => do
        let v ← envGet st.scopes.length st env name
        .ok (.val (cloneValue v), st)
      | .fnE params body => .ok (.val (.userFn params body env none), st)
      | .call callee args => do
        let (r, st) ← evalF fuel (.exprT callee) env st
        let calleeV := r.asVal
        if calleeV.kind ≠ .functionK then
          .error "Attempted to call a non-function value"
        else do
          let (rl, st) ← evalF fuel (.exprList args []) env st
          evalF fuel (.callV calleeV rl.asVals none) env st
      | .blockE b =>
        let (benv, st) := newScope st (some env)
        evalF fuel (.stmts b.statements .nullV) benv st
      | .blockFn b => .ok (.val (.userFn [] b env none), st)
      | .ifE cond thenB elseB => do
        let (r, st) ← evalF fuel (.exprT cond) env st
        if isTruthy r.asVal then
          let (benv, st) := newScope st (some env)
          evalF fuel (.stmts thenB.statements .nullV) benv st
        else
          match elseB with
          | some b =>
            let (benv, st) := newScope st (some env)
            evalF fuel (.stmts b.statements .nullV) benv st
          | none => .ok (.val .nullV, st)
      | .infixOp op l r => do
        let (lr, st) ← evalF fuel (.exprT l) env st
        let (rr, st) ← evalF fuel (.exprT r) env st
        match lookupMethod lr.asVal op with
        | none => .error ("Unknown operator " ++ op)
        | some m => evalF fuel (.callV m [rr.asVal] (some lr.asVal)) env st
    -- left-to-right argument evaluation of evaluateCallExpression
    | .exprList [] acc => .ok (.vals acc.reverse, st)
    | .exprList (e :: rest) acc => do
      let (r, st) ← evalF fuel (.exprT e) env st
      evalF fuel (.exprList rest (r.asVal :: acc)) env st
    -- UserFunctionValue.call / NativeFunctionValue.call
    | .callV callee args thisArg =>
      match callee with
      | .userFn params body closure _ =>
        let (fnEnv, st) := newScope st (some closure)
        let st := match thisArg with
          | some t => envDefine st fnEnv "self" t
          | none => st
        let st := bindParams st fnEnv params args
        evalF fuel (.stmts body.statements .nullV) fnEnv st
      | .nativeFn .whileFn =>
        -- the while builtin checks both arguments are function-kind,
        -- then loops: condition call, truthiness test, body call
        match args.get? 0 with
        | some cond =>
          if cond.kind ≠ .functionK then .error "while expects a function condition"
          else
            match args.get? 1 with
            | some blockV =>
              if blockV.kind ≠ .functionK then .error "while expects a function block"
              else evalF fuel (.whileLoop cond blockV .nullV) env st
            | none => .error "while expects a function block"
        | none => .error "while expects a function condition"
      | .nativeFn impl => do
        let (v, st) ← callNative impl args thisArg st
        .ok (.val v, st)
      | _ => .error "Attempted to call a non-function value"
    -- the loop of evaluateForStatement
    | .forLoop iterIdx loopEnv varName body last =>
      match st.iters.get? iterIdx with
      | none => .error "internal iterator"
      | some it =>
        let (stepv, it2) := rangeNext it
        let st := { st with iters := st.iters.set iterIdx it2 }
        match stepv with
        | none => .ok (.val last, st)
        | some q => do
          let st ← envAssign st.scopes.length st loopEnv varName
            (cloneValue (.number q))
          let (benv, st) := newScope st (some loopEnv)
          let (r, st) ← evalF fuel (.stmts body.statements .nullV) benv st
          evalF fuel (.forLoop iterIdx loopEnv varName body r.asVal) env st
    -- the loop of the while builtin
    | .whileLoop condV bodyV last => do
      let (cr, st) ← evalF fuel (.callV condV [] none) env st
      if ¬ isTruthy cr.asVal then .ok (.val last, st)
      else do
        let (br, st) ← evalF fuel (.callV bodyV [] none) env st
        evalF fuel (.whileLoop condV bodyV br.asVal) env st

/-- The global bindings of `createGlobalEnvironment`, in definition
order. -/
def globalBindings : List (String × Value) :=
  [("true", .boolV true), ("false", .boolV false), ("null", .nullV),
   ("print", .nativeFn .printFn), ("while", .nativeFn .whileFn),
   ("canvas", .nativeFn .canvasFn), ("canvasWidth", .nativeFn .canvasWidthFn),
   ("canvasHeight", .nativeFn .canvasHeightFn),
   ("fillCanvas", .nativeFn .fillCanvasFn), ("setPixel", .nativeFn .setPixelFn)]

/-- A fresh runtime: one global scope, no canvases, no iterators. -/
def initState : EvalState := ⟨[⟨globalBindings, none⟩], [], []⟩

def runFuel : Nat := 4096

/-- `evaluateSource`: parse, then run on a fresh global environment,
keeping the resulting value. -/
def runSource (source : String) : Except String Value := do
  let prog ← parse source
  let (r, _) ← evalF runFuel (.stmts prog .nullV) 0 initState
  .ok r.asVal

/-! ## Programs and specification-side definitions -/

/-- The factorial-via-inclusive-range program of the spec. -/
def factorialProgram : String :=
  "let product = 1\nfor number in 1...4 \x7b product = product times number \x7d\nproduct"

/-- A factory whose returned closure increments a captured counter; the
one-call program. -/
def counterFactoryOnce : String :=
  "let makeCounter = () => \x7b\n  let counter = 5\n  () => \x7b\n    counter = counter plus 1\n    counter\n  \x7d\n\x7d\nlet tick = makeCounter()\ntick()"

/-- The same factory, calling the returned closure twice. -/
def counterFactoryTwice : String :=
  "let makeCounter = () => \x7b\n  let counter = 5\n  () => \x7b\n    counter = counter plus 1\n    counter\n  \x7d\n\x7d\nlet tick = makeCounter()\nlet firstCall = tick()\ntick()"

/-- Drain an iterator with the given fuel: the values produced, whether a
done step was reached, and the final iterator state. -/
def iterSteps : Nat → RangeIter → List Q × Bool × RangeIter
  | 0, it => ([], false, it)
  | fuel + 1, it =>
    match rangeNext it with
    | (none, it2) => ([], true, it2)
    | (some q, it2) =>
      let (l, d, it3) := iterSteps fuel it2
      (q :: l, d, it3)

/-- The nearest scope in the parent chain that already defines `name`:
the specified mutation target of `assign`. -/
def resolveScope : Nat → EvalState → Nat → String → Option Nat
  | 0, _, _, _ => none
  | fuel + 1, st, env, name =>
    match st.scopes.get? env with
    | none => none
    | some sc =>
      if scopeHas sc.values name then some env
      else
        match sc.parent with
        | some p => resolveScope fuel st p name
        | none => none

/-- Scope chains are well-formed: every scope's parent precedes it in the
store (scopes are only ever created as children of existing scopes). -/
def parentsDecreasing (st : EvalState) : Prop :=
  ∀ i sc p, st.scopes.get? i = some sc → sc.parent = some p → p < i

/-- The binding domains of every scope in the store. -/
def stateKeys (st : EvalState) : List (List String) :=
  st.scopes.map fun sc => sc.values.map Prod.fst

/-- `evaluateSource`, also keeping the final stores. -/
def runSourceState (source : String) : Except String (Value × EvalState) := do
  let prog ← parse source
  let (r, st) ← evalF runFuel (.stmts prog .nullV) 0 initState
  .ok (r.asVal, st)

/-- A two-scope store for the assignment witness: a global scope binding
`x`, and an empty child scope. -/
def stW : EvalState :=
  ⟨[⟨[("x", .number ⟨1, 1⟩)], none⟩, ⟨[], some 0⟩], [], []⟩

/-- A store holding one 1-by-1 canvas, for the pixel-level witnesses. -/
def stC : EvalState := ⟨[], [⟨1, 1, mkPixels 4⟩], []⟩

/-- While-loop program whose condition is false on the first check. -/
def whileNeverProgram : String :=
  "let counter = 10\nwhile(() => counter lessThan 3) \x7b\n  counter = counter plus 1\n\x7d"

/-- While-loop program whose value is the last body result. -/
def whileLastProgram : String :=
  "let counter = 0\nwhile(() => counter lessThan 3) \x7b\n  counter = counter plus 1\n  counter times 2\n\x7d"

/-- While-loop program counting to three. -/
def whileCountProgram : String :=
  "let counter = 0\nwhile(() => counter lessThan 3) \x7b\n  counter = counter plus 1\n\x7d\ncounter"

/-- The channel-clamping program of the spec. -/
def setPixelClampProgram : String :=
  "let img = canvas(1, 1)\nsetPixel(img, 0, 0, 300, 0 - 20, 127.6)\nimg"

/-- The claim wording of the lambda-scan pattern, continued after an
identifier: either the closing parenthesis immediately followed by the
arrow, or a comma followed by another identifier. -/
def identsAfter : List Token → Bool
  | t :: rest =>
    match t.type with
    | .rparen =>
      (match rest with
       | next :: _ => next.type = .arrow
       | [] => false)
    | .comma =>
      (match rest with
       | u :: rest2 => u.type = .identifier && identsAfter rest2
       | [] => false)
    | _ => false
  | [] => false

/-- The claim wording of the lambda-scan pattern, inside the parentheses:
an empty run, or identifiers separated by single commas, closed by `)`
immediately followed by `=>`. -/
def identsThenClose : List Token → Bool
  | t :: rest =>
    match t.type with
    | .rparen =>
      (match rest with
       | next :: _ => next.type = .arrow
       | [] => false)
    | .identifier => identsAfter rest
    | _ => false
  | [] => false

/-- The lambda-signature pattern exactly as the claim words it: `(`, a
flat comma-separated run of identifier tokens, `)`, then `=>`.  This
definition follows the claim text, for comparison with the
implementation scan. -/
def claimSigSpec : List Token → Bool
  | t :: rest => t.type = .lparen && identsThenClose rest
  | [] => false

/-- The language the implementation scan actually accepts past the
opening parenthesis: identifier and comma tokens with no two adjacent
identifiers (`ep` tracks whether an identifier is currently permitted),
closed by `)` immediately followed by `=>`; any other token — a nested
`(` included — aborts. -/
def scanSpec : List Token → Bool → Bool
  | t :: rest, ep =>
    match t.type with
    | .rparen =>
      (match rest with
       | next :: _ => next.type = .arrow
       | [] => false)
    | .comma => scanSpec rest true
    | .identifier => ep && scanSpec rest false
    | _ => false
  | [], _ => false

/-! ## Claim theorems -/
/-- C1: running the factorial program through the parse/run pipeline
yields the number value 24: the tokenizer accepts the `...` punctuation
(as the `rangeInclusive` operator token) and the `for` / `in` construct,
the parser builds a For statement over an inclusive range from 1 to 4,
and the evaluator multiplies 1, 2, 3, 4 into `product`. -/
theorem c1_factorial_pipeline :
    (tokenize factorialProgram).map (fun ts => ts.map fun t => (t.type, t.value)) =
      .ok [(.kwLet, ""), (.identifier, "product"), (.assign, ""), (.number, "1"),
        (.newline, ""), (.kwFor, ""), (.identifier, "number"), (.kwIn, ""),
        (.number, "1"), (.identifier, "rangeInclusive"), (.number, "4"),
        (.lbrace, ""), (.identifier, "product"), (.assign, ""),
        (.identifier, "product"), (.identifier, "times"), (.identifier, "number"),
        (.rbrace, ""), (.newline, ""), (.identifier, "product"), (.eof, "")]
    ∧ parse factorialProgram =
      .ok [.letS "product" (.num ⟨1, 1⟩),
        .forS "number" (.infixOp "rangeInclusive" (.num ⟨1, 1⟩) (.num ⟨4, 1⟩))
          (.mk [.assignS "product"
            (.infixOp "times" (.identE "product") (.identE "number"))] false),
        .exprS (.identE "product")]
    ∧ runSource factorialProgram = .ok (.number ⟨24, 1⟩) :=
  ⟨rfl, rfl, rfl⟩

set_option maxHeartbeats 3000000 in
/-- C2: expression parsing has a single flat precedence tier and every
infix operator of the known-operator set is left-associative: for any two
operators of the set, `n1 op1 n2 op2 n3` parses as
`Infix(op2, Infix(op1, n1, n2), n3)`; in particular `1 plus 2 times 3`
parses left-nested and evaluates to 9, not 7. -/
theorem c2_flat_precedence_left_associative (op1 op2 s1 s2 s3 : String)
    (h1 : INFIX_OPERATORS.contains op1 = true)
    (h2 : INFIX_OPERATORS.contains op2 = true) :
    parseF 32 (.statements false [])
      ⟨[⟨.number, s1, 0⟩, ⟨.identifier, op1, 0⟩, ⟨.number, s2, 0⟩,
        ⟨.identifier, op2, 0⟩, ⟨.number, s3, 0⟩, ⟨.eof, "", 0⟩], 0⟩ =
      .ok (.stmts [.exprS (.infixOp op2
          (.infixOp op1 (.num (parseNumberLit s1)) (.num (parseNumberLit s2)))
          (.num (parseNumberLit s3)))],
        ⟨[⟨.number, s1, 0⟩, ⟨.identifier, op1, 0⟩, ⟨.number, s2, 0⟩,
          ⟨.identifier, op2, 0⟩, ⟨.number, s3, 0⟩, ⟨.eof, "", 0⟩], 5⟩)
    ∧ parse "1 plus 2 times 3" =
      .ok [.exprS (.infixOp "times"
        (.infixOp "plus" (.num ⟨1, 1⟩) (.num ⟨2, 1⟩)) (.num ⟨3, 1⟩))]
    ∧ runSource "1 plus 2 times 3" = .ok (.number ⟨9, 1⟩) := by
  refine ⟨?_, rfl, rfl⟩
  have m1 : op1 ∈ INFIX_OPERATORS := by
    simpa using h1
  have m2 : op2 ∈ INFIX_OPERATORS := by
    simpa using h2
  fin_cases m1 <;> fin_cases m2 <;> rfl

/-- Witness for C2 at `op1 = plus`, `op2 = times` on the literal tokens
`1 2 3`. -/
theorem c2_witness :
    INFIX_OPERATORS.contains "plus" = true
    ∧ INFIX_OPERATORS.contains "times" = true
    ∧ (parseF 32 (.statements false [])
        ⟨[⟨.number, "1", 0⟩, ⟨.identifier, "plus", 0⟩, ⟨.number, "2", 0⟩,
          ⟨.identifier, "times", 0⟩, ⟨.number, "3", 0⟩, ⟨.eof, "", 0⟩], 0⟩ =
        .ok (.stmts [.exprS (.infixOp "times"
            (.infixOp "plus" (.num (parseNumberLit "1")) (.num (parseNumberLit "2")))
            (.num (parseNumberLit "3")))],
          ⟨[⟨.number, "1", 0⟩, ⟨.identifier, "plus", 0⟩, ⟨.number, "2", 0⟩,
            ⟨.identifier, "times", 0⟩, ⟨.number, "3", 0⟩, ⟨.eof, "", 0⟩], 5⟩)
      ∧ parse "1 plus 2 times 3" =
        .ok [.exprS (.infixOp "times"
          (.infixOp "plus" (.num ⟨1, 1⟩) (.num ⟨2, 1⟩)) (.num ⟨3, 1⟩))]
      ∧ runSource "1 plus 2 times 3" = .ok (.number ⟨9, 1⟩)) :=
  ⟨by decide, by decide,
    c2_flat_precedence_left_associative "plus" "times" "1" "2" "3"
      (by decide) (by decide)⟩
/-- C3: a user function value captures its defining Environment by shared
reference, not by copy: for a factory that defines a local counter
initialized to 5 and returns a zero-parameter closure incrementing and
returning it, the first call of the returned closure yields 6 and the
second call yields 7 (the mutation persists across invocations, after the
factory call has returned). -/
theorem c3_closure_shares_captured_environment :
    runSource counterFactoryOnce = .ok (.number ⟨6, 1⟩)
    ∧ runSource counterFactoryTwice = .ok (.number ⟨7, 1⟩) :=
  ⟨rfl, rfl⟩

theorem scopeSet_keys (name : String) (v : Value) :
    ∀ vals, scopeHas vals name = true →
      (scopeSet vals name v).map Prod.fst = vals.map Prod.fst := by
  intro vals h
  induction vals with
  | nil => simp [scopeHas, scopeGet] at h
  | cons kv rest ih =>
    obtain ⟨k, w⟩ := kv
    by_cases hk : k = name
    · subst hk
      simp [scopeSet]
    · simp [scopeSet, hk]
      exact ih (by simpa [scopeHas, scopeGet, hk] using h)

theorem resolveScope_has (name : String) :
    ∀ fuel st env i, resolveScope fuel st env name = some i →
      ∃ sc, st.scopes.get? i = some sc ∧ scopeHas sc.values name = true := by
  intro fuel
  induction fuel with
  | zero => intro st env i h; simp [resolveScope] at h
  | succ fuel ih =>
    intro st env i h
    rw [resolveScope] at h
    match hg : st.scopes.get? env with
    | none =>
      simp only [hg] at h
      exact Option.noConfusion h
    | some sc =>
      simp only [hg] at h
      by_cases hh : scopeHas sc.values name = true
      · rw [if_pos hh] at h
        injection h with h
        subst h
        exact ⟨sc, hg, hh⟩
      · rw [if_neg hh] at h
        match hp : sc.parent with
        | some p => simp only [hp] at h; exact ih st p i h
        | none =>
          simp only [hp] at h
          exact Option.noConfusion h

theorem keys_envDefine (name : String) (v : Value) :
    ∀ scopes cnv itr i sc, scopes.get? i = some sc →
      scopeHas sc.values name = true →
      stateKeys (envDefine ⟨scopes, cnv, itr⟩ i name v) = stateKeys ⟨scopes, cnv, itr⟩ := by
  intro scopes
  induction scopes with
  | nil => intro cnv itr i sc h; simp at h
  | cons s rest ih =>
    intro cnv itr i sc h hh
    match i with
    | 0 =>
      injection h with h
      subst h
      simp [stateKeys, envDefine, updateScope, setScopes, scopeSet_keys name v _ hh]
    | i + 1 =>
      have := ih cnv itr i sc (by simpa using h) hh
      simpa [stateKeys, envDefine, updateScope, setScopes] using this

theorem envAssign_resolved (name : String) (v : Value) :
    ∀ fuel st env i, resolveScope fuel st env name = some i →
      envAssign fuel st env name v = .ok (envDefine st i name v) := by
  intro fuel
  induction fuel with
  | zero => intro st env i h; simp [resolveScope] at h
  | succ fuel ih =>
    intro st env i h
    rw [resolveScope] at h
    rw [envAssign]
    match hg : st.scopes.get? env with
    | none =>
      simp only [hg] at h
      exact Option.noConfusion h
    | some sc =>
      simp only [hg] at h
      simp only [hg]
      by_cases hh : scopeHas sc.values name = true
      · rw [if_pos hh] at h
        injection h with h
        subst h
        simp [hh]
      · rw [if_neg hh] at h
        simp only [hh, if_false, Bool.false_eq_true]
        match hp : sc.parent with
        | some p =>
          simp only [hp] at h ⊢
          exact ih st p i h
        | none =>
          simp only [hp] at h
          exact Option.noConfusion h

theorem envAssign_unresolved (name : String) (v : Value) (st : EvalState)
    (hpd : parentsDecreasing st) :
    ∀ fuel env, env < st.scopes.length → env < fuel →
      resolveScope fuel st env name = none →
      envAssign fuel st env name v = .error ("Undefined variable " ++ name) := by
  intro fuel
  induction fuel with
  | zero => intro env h1 h2; omega
  | succ fuel ih =>
    intro env h1 h2 hres
    rw [resolveScope] at hres
    rw [envAssign]
    match hg : st.scopes.get? env with
    | none =>
      rw [List.get?_eq_none] at hg
      omega
    | some sc =>
      simp only [hg] at hres
      simp only [hg]
      by_cases hh : scopeHas sc.values name = true
      · rw [if_pos hh] at hres; simp at hres
      · rw [if_neg hh] at hres
        simp only [hh, if_false, Bool.false_eq_true]
        match hp : sc.parent with
        | some p =>
          simp only [hp] at hres ⊢
          have hpi : p < env := hpd env sc p hg hp
          exact ih p (by omega) (by omega) hres
        | none => simp only [hp] at hres ⊢

/-- C4: `Environment.assign` mutates the binding in the nearest enclosing
scope that already defines the name (leaving every scope's binding domain
unchanged — assignment never creates a binding), and fails with the
unresolved-name runtime error when no scope in the chain defines it; a
`let` definition followed by an assignment succeeds while assigning to a
never-declared name fails. -/
theorem c4_assign_nearest_or_unresolved (fuel : Nat) (st : EvalState) (env : Nat)
    (name : String) (v : Value) (hpd : parentsDecreasing st)
    (henv : env < st.scopes.length) (hfuel : env < fuel) :
    (∀ i, resolveScope fuel st env name = some i →
      envAssign fuel st env name v = .ok (envDefine st i name v)
      ∧ stateKeys (envDefine st i name v) = stateKeys st)
    ∧ (resolveScope fuel st env name = none →
      envAssign fuel st env name v = .error ("Undefined variable " ++ name))
    ∧ runSource "x = 3" = .error "Undefined variable x"
    ∧ runSource "let x = 1\nx = 3\nx" = .ok (.number ⟨3, 1⟩) := by
  refine ⟨?_, ?_, rfl, rfl⟩
  · intro i hres
    obtain ⟨sc, hgi, hhi⟩ := resolveScope_has name fuel st env i hres
    exact ⟨envAssign_resolved name v fuel st env i hres,
      keys_envDefine name v st.scopes st.canvases st.iters i sc hgi hhi⟩
  · exact envAssign_unresolved name v st hpd fuel env henv hfuel

/-- Witness for C4 on a two-scope store: assigning `x` from the child
scope mutates the global binding without changing any binding domain, and
assigning a never-defined name is the unresolved-name error. -/
theorem c4_witness :
    envAssign 2 stW 1 "x" (.number ⟨3, 1⟩) =
      .ok (envDefine stW 0 "x" (.number ⟨3, 1⟩))
    ∧ stateKeys (envDefine stW 0 "x" (.number ⟨3, 1⟩)) = stateKeys stW
    ∧ envAssign 2 stW 1 "missing" .nullV =
      .error ("Undefined variable " ++ "missing")
    ∧ runSource "x = 3" = .error "Undefined variable x"
    ∧ runSource "let x = 1\nx = 3\nx" = .ok (.number ⟨3, 1⟩) := by
  have hpd : parentsDecreasing stW := by
    intro i sc p h1 h2
    match i, h1 with
    | 0, h1 =>
      injection h1 with h1
      subst h1
      exact Option.noConfusion h2
    | 1, h1 =>
      injection h1 with h1
      subst h1
      injection h2 with h2
      omega
  have hx := c4_assign_nearest_or_unresolved 2 stW 1 "x" (.number ⟨3, 1⟩) hpd
    (by decide) (by decide)
  have hm := c4_assign_nearest_or_unresolved 2 stW 1 "missing" .nullV hpd
    (by decide) (by decide)
  exact ⟨(hx.1 0 rfl).1, (hx.1 0 rfl).2, hm.2.1 rfl, hx.2.2.1, hx.2.2.2⟩

theorem iterSteps_excl (n : ℕ) : ∀ a b : ℤ, b - a = n →
    iterSteps (n + 1) ⟨⟨a, 1⟩, ⟨b, 1⟩, ⟨1, 1⟩, false⟩ =
      (((List.range n).map fun k : ℕ => Q.ofInt (a + (k : ℤ))), true,
        ⟨⟨b, 1⟩, ⟨b, 1⟩, ⟨1, 1⟩, false⟩) := by
  induction n with
  | zero =>
    intro a b h
    have hb : b = a := by omega
    subst hb
    simp [iterSteps, rangeNext, Q.lt, Q.le]
  | succ n ih =>
    intro a b h
    have hba : ¬ ((b : ℤ) ≤ a) := by omega
    have hl : (List.range (n + 1)).map (fun k : ℕ => Q.ofInt (a + (k : ℤ)))
        = Q.ofInt a ::
          (List.range n).map (fun k : ℕ => Q.ofInt ((a + 1) + (k : ℤ))) := by
      rw [List.range_succ_eq_map]
      rw [List.map_cons, List.map_map]
      refine congrArg₂ List.cons (by simp [Q.ofInt]) ?_
      refine List.map_congr_left fun k _ => ?_
      simp only [Function.comp]
      congr 1
      push_cast
      ring
    rw [hl]
    rw [iterSteps]
    simp only [rangeNext, Q.lt, Q.le, Q.add]
    norm_num [hba]
    rw [ih (a + 1) b (by push_cast at h ⊢; omega)]
    simp [Q.ofInt]

theorem iterSteps_incl (n : ℕ) : ∀ a b : ℤ, b - a = n →
    iterSteps (n + 2) ⟨⟨a, 1⟩, ⟨b, 1⟩, ⟨1, 1⟩, true⟩ =
      (((List.range (n + 1)).map fun k : ℕ => Q.ofInt (a + (k : ℤ))), true,
        ⟨⟨b + 1, 1⟩, ⟨b, 1⟩, ⟨1, 1⟩, true⟩) := by
  induction n with
  | zero =>
    intro a b h
    have hb : b = a := by omega
    subst hb
    norm_num [iterSteps, rangeNext, Q.lt, Q.le, Q.add, Q.ofInt, List.range_succ]
  | succ n ih =>
    intro a b h
    have hba : ¬ ((b : ℤ) < a) := by omega
    have hl : (List.range (n + 2)).map (fun k : ℕ => Q.ofInt (a + (k : ℤ)))
        = Q.ofInt a ::
          (List.range (n + 1)).map (fun k : ℕ => Q.ofInt ((a + 1) + (k : ℤ))) := by
      rw [List.range_succ_eq_map]
      rw [List.map_cons, List.map_map]
      refine congrArg₂ List.cons (by simp [Q.ofInt]) ?_
      refine List.map_congr_left fun k _ => ?_
      simp only [Function.comp]
      congr 1
      push_cast
      ring
    rw [hl]
    rw [iterSteps]
    simp only [rangeNext, Q.lt, Q.le, Q.add]
    norm_num [hba]
    rw [ih (a + 1) b (by push_cast at h ⊢; omega)]
    simp [Q.ofInt]

/-- C5: for integers `a ≤ b`, the iterator made by `rangeExclusive`
(`a..b`) yields exactly `b - a` steps carrying `a, a+1, …, b-1` and then
reports done, and the iterator made by `rangeInclusive` (`a...b`) yields
exactly one more step, up to and including `b`; the two native methods
allocate exactly these iterators. -/
theorem c5_range_iterator_steps (a b : ℤ) (hab : a ≤ b) (st : EvalState) :
    iterSteps ((b - a).toNat + 1) (createRangeIterator (Q.ofInt a) (Q.ofInt b) false) =
      (((List.range (b - a).toNat).map fun k : ℕ => Q.ofInt (a + (k : ℤ))), true,
        ⟨Q.ofInt b, Q.ofInt b, ⟨1, 1⟩, false⟩)
    ∧ iterSteps ((b - a).toNat + 2) (createRangeIterator (Q.ofInt a) (Q.ofInt b) true) =
      (((List.range ((b - a).toNat + 1)).map fun k : ℕ => Q.ofInt (a + (k : ℤ))), true,
        ⟨Q.ofInt (b + 1), Q.ofInt b, ⟨1, 1⟩, true⟩)
    ∧ callNative .numRangeExclusive [.number (Q.ofInt b)] (some (.number (Q.ofInt a))) st =
      .ok (.iterator st.iters.length,
        { st with iters := st.iters ++ [createRangeIterator (Q.ofInt a) (Q.ofInt b) false] })
    ∧ callNative .numRangeInclusive [.number (Q.ofInt b)] (some (.number (Q.ofInt a))) st =
      .ok (.iterator st.iters.length,
        { st with iters := st.iters ++ [createRangeIterator (Q.ofInt a) (Q.ofInt b) true] }) := by
  have hcr : ∀ inc : Bool, createRangeIterator (Q.ofInt a) (Q.ofInt b) inc =
      ⟨⟨a, 1⟩, ⟨b, 1⟩, ⟨1, 1⟩, inc⟩ := by
    intro inc
    simp [createRangeIterator, Q.le, Q.ofInt]
    omega
  refine ⟨?_, ?_, rfl, rfl⟩
  · rw [hcr false]
    have := iterSteps_excl (b - a).toNat a b (by omega)
    simpa [Q.ofInt] using this
  · rw [hcr true]
    have := iterSteps_incl (b - a).toNat a b (by omega)
    simpa [Q.ofInt] using this

/-- Witness for C5 at the inclusive range 1...4 of the factorial program
(and its exclusive counterpart 1..4). -/
theorem c5_witness :
    iterSteps (((4 : ℤ) - 1).toNat + 1) (createRangeIterator (Q.ofInt 1) (Q.ofInt 4) false) =
      (((List.range ((4 : ℤ) - 1).toNat).map fun k : ℕ => Q.ofInt (1 + (k : ℤ))), true,
        ⟨Q.ofInt 4, Q.ofInt 4, ⟨1, 1⟩, false⟩)
    ∧ iterSteps (((4 : ℤ) - 1).toNat + 2) (createRangeIterator (Q.ofInt 1) (Q.ofInt 4) true) =
      (((List.range (((4 : ℤ) - 1).toNat + 1)).map fun k : ℕ => Q.ofInt (1 + (k : ℤ))), true,
        ⟨Q.ofInt (4 + 1), Q.ofInt 4, ⟨1, 1⟩, true⟩)
    ∧ callNative .numRangeExclusive [.number (Q.ofInt 4)] (some (.number (Q.ofInt 1))) initState =
      .ok (.iterator initState.iters.length,
        { initState with
          iters := initState.iters ++ [createRangeIterator (Q.ofInt 1) (Q.ofInt 4) false] })
    ∧ callNative .numRangeInclusive [.number (Q.ofInt 4)] (some (.number (Q.ofInt 1))) initState =
      .ok (.iterator initState.iters.length,
        { initState with
          iters := initState.iters ++ [createRangeIterator (Q.ofInt 1) (Q.ofInt 4) true] }) :=
  c5_range_iterator_steps 1 4 (by decide) initState

/-- C6: the native builtin `while(conditionFn, bodyFn)` fails with the
native-argument-type error when either argument is not function-kind;
otherwise it repeatedly calls the condition with no arguments and, while
truthy, the body with no arguments, returning null when the body never
ran and the last body result otherwise. -/
theorem c6_while_argument_checks (v w : Value) (fuel env : Nat) (st : EvalState)
    (args : List Value)
    (hv : v.kind ≠ ValueKind.functionK) (hw : w.kind = ValueKind.functionK) :
    evalF (fuel + 1) (.callV (.nativeFn .whileFn) (v :: args) none) env st =
      .error "while expects a function condition"
    ∧ evalF (fuel + 1) (.callV (.nativeFn .whileFn) [w, v] none) env st =
      .error "while expects a function block"
    ∧ runSource whileNeverProgram = .ok .nullV
    ∧ runSource whileLastProgram = .ok (.number ⟨6, 1⟩)
    ∧ runSource whileCountProgram = .ok (.number ⟨3, 1⟩)
    ∧ runSource "while(true) \x7b null \x7d" =
      .error "while expects a function condition" := by
  refine ⟨?_, ?_, rfl, rfl, rfl, rfl⟩
  · simp [evalF, hv]
  · simp [evalF, hv, hw]

/-- Witness for C6: a number condition is rejected, a number body after a
native-function condition is rejected, and the three loop programs
produce null, 6 and 3. -/
theorem c6_witness :
    evalF (0 + 1) (.callV (.nativeFn .whileFn) [.number ⟨1, 1⟩] none) 0 initState =
      .error "while expects a function condition"
    ∧ evalF (0 + 1) (.callV (.nativeFn .whileFn)
        [.nativeFn .printFn, .number ⟨1, 1⟩] none) 0 initState =
      .error "while expects a function block"
    ∧ runSource whileNeverProgram = .ok .nullV
    ∧ runSource whileLastProgram = .ok (.number ⟨6, 1⟩)
    ∧ runSource whileCountProgram = .ok (.number ⟨3, 1⟩)
    ∧ runSource "while(true) \x7b null \x7d" =
      .error "while expects a function condition" :=
  c6_while_argument_checks (.number ⟨1, 1⟩) (.nativeFn .printFn) 0 0 initState []
    (by decide) rfl

/-- C7: `canvas(width, height)` fails with a canvas-dimension error
unless both dimensions are finite with strictly positive floors — in
particular `canvas(0, 5)` and `canvas(10, -3)` fail — and on success
returns a fresh buffer of `floor(width) * floor(height)` pixels whose
byte array has length `width * height * 4` with every color channel 0 and
every alpha channel 255. -/
theorem c7_canvas_creation (w h : Q) :
    (¬ (w.isFinite = true ∧ h.isFinite = true) →
      makeCanvas w h = .error "canvas expects finite width and height")
    ∧ (w.isFinite = true → h.isFinite = true → w.floor ≤ 0 ∨ h.floor ≤ 0 →
      makeCanvas w h = .error "canvas width and height must be positive integers")
    ∧ (w.isFinite = true → h.isFinite = true → 0 < w.floor → 0 < h.floor →
      makeCanvas w h =
        .ok ⟨w.floor.toNat, h.floor.toNat, mkPixels (w.floor.toNat * h.floor.toNat * 4)⟩
      ∧ (mkPixels (w.floor.toNat * h.floor.toNat * 4)).length =
          w.floor.toNat * h.floor.toNat * 4
      ∧ (∀ i, i < w.floor.toNat * h.floor.toNat * 4 →
          (mkPixels (w.floor.toNat * h.floor.toNat * 4)).getD i 0 =
            if i % 4 = 3 then 255 else 0))
    ∧ makeCanvas ⟨0, 1⟩ ⟨5, 1⟩ =
      .error "canvas width and height must be positive integers"
    ∧ makeCanvas ⟨10, 1⟩ ⟨-3, 1⟩ =
      .error "canvas width and height must be positive integers"
    ∧ runSource "canvas(0, 5)" =
      .error "canvas width and height must be positive integers"
    ∧ runSource "canvas(10, 0 - 3)" =
      .error "canvas width and height must be positive integers" := by
  refine ⟨?_, ?_, ?_, rfl, rfl, rfl, rfl⟩
  · intro hnf
    rw [makeCanvas, if_pos]
    rcases not_and_or.mp hnf with h1 | h1
    · exact Or.inl h1
    · exact Or.inr h1
  · intro h1 h2 h3
    rw [makeCanvas, if_neg (by simp [h1, h2]), if_pos h3]
  · intro h1 h2 h3 h4
    refine ⟨?_, by simp [mkPixels], ?_⟩
    · rw [makeCanvas, if_neg (by simp [h1, h2]), if_neg (by omega)]
    · intro i hi
      rw [mkPixels, List.getD_eq_getElem?_getD, List.getElem?_map,
        List.getElem?_range hi]
      rfl

/-- Witness for C7: a 3-by-2 canvas is created opaque and zeroed, and a
zero width is rejected. -/
theorem c7_witness :
    makeCanvas ⟨3, 1⟩ ⟨2, 1⟩ = .ok ⟨3, 2, mkPixels 24⟩
    ∧ (mkPixels 24).length = 24
    ∧ makeCanvas ⟨0, 1⟩ ⟨5, 1⟩ =
      .error "canvas width and height must be positive integers" := by
  have h3 := (c7_canvas_creation ⟨3, 1⟩ ⟨2, 1⟩).2.2.1 rfl rfl (by decide) (by decide)
  exact ⟨h3.1, h3.2.1, (c7_canvas_creation ⟨0, 1⟩ ⟨5, 1⟩).2.2.2.1⟩

/-- C8: `setPixel(buf, x, y, r, g, b, a?)` floors `x` and `y`, fails with
the out-of-bounds error exactly when the floored coordinate lies outside
`[0, width) x [0, height)`, and otherwise stores each channel rounded and
clamped to `[0, 255]` with alpha defaulting to 255 when omitted; in
particular `setPixel(img, 0, 0, 300, -20, 127.6)` on a 1-by-1 canvas
stores the bytes `[255, 0, 128, 255]`. -/
theorem c8_setPixel_floor_clamp (st : EvalState) (idx : Nat) (cd : CanvasData)
    (x y r g b : Q) (hget : st.canvases.get? idx = some cd) :
    ((x.floor < 0 ∨ x.floor ≥ (cd.width : Int) ∨ y.floor < 0 ∨ y.floor ≥ (cd.height : Int)) →
      callNative .setPixelFn
        [.canvasV idx, .number x, .number y, .number r, .number g, .number b] none st =
        .error "setPixel coordinate is out of bounds")
    ∧ (¬ (x.floor < 0 ∨ x.floor ≥ (cd.width : Int) ∨ y.floor < 0 ∨ y.floor ≥ (cd.height : Int)) →
      callNative .setPixelFn
        [.canvasV idx, .number x, .number y, .number r, .number g, .number b] none st =
        .ok (.canvasV idx,
          { st with canvases := (st.canvases.set idx
            { cd with pixels :=
              ((((cd.pixels.set ((y.floor.toNat * cd.width + x.floor.toNat) * 4)
                    (clampChannel r)).set
                  ((y.floor.toNat * cd.width + x.floor.toNat) * 4 + 1) (clampChannel g)).set
                ((y.floor.toNat * cd.width + x.floor.toNat) * 4 + 2) (clampChannel b)).set
                ((y.floor.toNat * cd.width + x.floor.toNat) * 4 + 3) 255) }) }))
    ∧ (∀ a : Q,
      ¬ (x.floor < 0 ∨ x.floor ≥ (cd.width : Int) ∨ y.floor < 0 ∨ y.floor ≥ (cd.height : Int)) →
      callNative .setPixelFn
        [.canvasV idx, .number x, .number y, .number r, .number g, .number b, .number a]
        none st =
        .ok (.canvasV idx,
          { st with canvases := (st.canvases.set idx
            { cd with pixels :=
              ((((cd.pixels.set ((y.floor.toNat * cd.width + x.floor.toNat) * 4)
                    (clampChannel r)).set
                  ((y.floor.toNat * cd.width + x.floor.toNat) * 4 + 1) (clampChannel g)).set
                ((y.floor.toNat * cd.width + x.floor.toNat) * 4 + 2) (clampChannel b)).set
                ((y.floor.toNat * cd.width + x.floor.toNat) * 4 + 3) (clampChannel a)) }) }))
    ∧ callNative .setPixelFn
        [.canvasV 0, .number ⟨0, 1⟩, .number ⟨0, 1⟩, .number ⟨300, 1⟩,
          .number ⟨-20, 1⟩, .number ⟨1276, 10⟩] none stC =
        .ok (.canvasV 0, ⟨[], [⟨1, 1, [255, 0, 128, 255]⟩], []⟩)
    ∧ (runSourceState setPixelClampProgram).map
        (fun p => p.2.canvases.map fun c => c.pixels) = .ok [[255, 0, 128, 255]] := by
  have hget2 : st.canvases[idx]? = some cd := by
    rw [← List.get?_eq_getElem?]
    exact hget
  refine ⟨?_, ?_, ?_, rfl, rfl⟩
  · intro hoob
    simp [callNative, argOr, expectCanvas, expectNumber, Bind.bind,
      Except.instMonad, Except.bind, Except.map, hget2, hoob]
  · intro hoob
    simp [callNative, argOr, expectCanvas, expectNumber, Bind.bind,
      Except.instMonad, Except.bind, Except.map, hget2, hoob]
  · intro a hoob
    simp [callNative, argOr, expectCanvas, expectNumber, Bind.bind,
      Except.instMonad, Except.bind, Except.map, hget2, hoob]

/-- Witness for C8 on a 1-by-1 canvas: the floored x-coordinate 5 is
rejected as out of bounds, and the channel fixture 300 / -20 / 127.6 is
stored as the bytes 255, 0, 128 with default alpha 255. -/
theorem c8_witness :
    callNative .setPixelFn
      [.canvasV 0, .number ⟨5, 1⟩, .number ⟨0, 1⟩, .number ⟨0, 1⟩,
        .number ⟨0, 1⟩, .number ⟨0, 1⟩] none stC =
      .error "setPixel coordinate is out of bounds"
    ∧ callNative .setPixelFn
      [.canvasV 0, .number ⟨0, 1⟩, .number ⟨0, 1⟩, .number ⟨300, 1⟩,
        .number ⟨-20, 1⟩, .number ⟨1276, 10⟩] none stC =
      .ok (.canvasV 0, ⟨[], [⟨1, 1, [255, 0, 128, 255]⟩], []⟩)
    ∧ (runSourceState setPixelClampProgram).map
        (fun p => p.2.canvases.map fun c => c.pixels) = .ok [[255, 0, 128, 255]] :=
  ⟨(c8_setPixel_floor_clamp stC 0 ⟨1, 1, mkPixels 4⟩ ⟨5, 1⟩ ⟨0, 1⟩ ⟨0, 1⟩ ⟨0, 1⟩
      ⟨0, 1⟩ rfl).1 (by decide),
    (c8_setPixel_floor_clamp stC 0 ⟨1, 1, mkPixels 4⟩ ⟨0, 1⟩ ⟨0, 1⟩ ⟨300, 1⟩
      ⟨-20, 1⟩ ⟨1276, 10⟩ rfl).2.2.2.1,
    (c8_setPixel_floor_clamp stC 0 ⟨1, 1, mkPixels 4⟩ ⟨0, 1⟩ ⟨0, 1⟩ ⟨300, 1⟩
      ⟨-20, 1⟩ ⟨1276, 10⟩ rfl).2.2.2.2⟩

theorem map_dims_set (l : List CanvasData) (i : Nat) (cd2 : CanvasData)
    (h : ∀ cd, l[i]? = some cd →
      cd2.width = cd.width ∧ cd2.height = cd.height ∧
      cd2.pixels.length = cd.pixels.length) :
    (l.set i cd2).map (fun c => (c.width, c.height, c.pixels.length)) =
      l.map (fun c => (c.width, c.height, c.pixels.length)) := by
  induction l generalizing i with
  | nil => simp
  | cons hd tl ih =>
    match i with
    | 0 =>
      obtain ⟨hw, hh, hl⟩ := h hd (by simp)
      simp [List.set, hw, hh, hl]
    | i + 1 =>
      simp only [List.set, List.map_cons]
      rw [ih i (fun cd hcd => h cd (by simpa using hcd))]

theorem fillCanvas_preserves_dims (st : EvalState) (idx : Nat) (args : List Value)
    (v : Value) (st2 : EvalState)
    (h : callNative .fillCanvasFn (.canvasV idx :: args) none st = .ok (v, st2)) :
    v = .canvasV idx
    ∧ st2.canvases.map (fun c => (c.width, c.height, c.pixels.length)) =
      st.canvases.map (fun c => (c.width, c.height, c.pixels.length)) := by
  simp only [callNative, argOr, Option.getD, expectCanvas, Bind.bind,
    Except.instMonad, Except.bind, Except.map, List.get?] at h
  repeat' split at h
  all_goals
    first
    | (simp only [Except.ok.injEq, Prod.mk.injEq] at h
       obtain ⟨hv, hst⟩ := h
       subst hst
       refine ⟨hv.symm, map_dims_set _ _ _ fun cd hcd => ?_⟩
       simp_all [fillPixels])
    | exact absurd h (by simp)

theorem setPixel_preserves_dims (st : EvalState) (idx : Nat) (args : List Value)
    (v : Value) (st2 : EvalState)
    (h : callNative .setPixelFn (.canvasV idx :: args) none st = .ok (v, st2)) :
    v = .canvasV idx
    ∧ st2.canvases.map (fun c => (c.width, c.height, c.pixels.length)) =
      st.canvases.map (fun c => (c.width, c.height, c.pixels.length)) := by
  simp only [callNative, argOr, Option.getD, expectCanvas, Bind.bind,
    Except.instMonad, Except.bind, Except.map, List.get?] at h
  repeat' split at h
  all_goals
    first
    | (simp only [Except.ok.injEq, Prod.mk.injEq] at h
       obtain ⟨hv, hst⟩ := h
       subst hst
       refine ⟨hv.symm, map_dims_set _ _ _ fun cd hcd => ?_⟩
       simp_all)
    | exact absurd h (by simp)

theorem makeCanvas_pixels_length (w h : Q) (cd : CanvasData)
    (hmk : makeCanvas w h = .ok cd) :
    cd.pixels.length = cd.width * cd.height * 4 := by
  simp only [makeCanvas] at hmk
  split at hmk
  · exact absurd hmk (by simp)
  · split at hmk
    · exact absurd hmk (by simp)
    · injection hmk with hmk
      subst hmk
      simp [mkPixels]

theorem canvasWidth_pure (args : List Value) (thisArg : Option Value)
    (st : EvalState) (v : Value) (st2 : EvalState)
    (h : callNative .canvasWidthFn args thisArg st = .ok (v, st2)) : st2 = st := by
  simp only [callNative, argOr, expectCanvas, Bind.bind, Except.instMonad,
    Except.bind, Except.map, List.get?] at h
  repeat' split at h
  all_goals
    first
    | (simp only [Except.ok.injEq, Prod.mk.injEq] at h
       exact h.2.symm)
    | exact absurd h (by simp)

theorem canvasHeight_pure (args : List Value) (thisArg : Option Value)
    (st : EvalState) (v : Value) (st2 : EvalState)
    (h : callNative .canvasHeightFn args thisArg st = .ok (v, st2)) : st2 = st := by
  simp only [callNative, argOr, expectCanvas, Bind.bind, Except.instMonad,
    Except.bind, Except.map, List.get?] at h
  repeat' split at h
  all_goals
    first
    | (simp only [Except.ok.injEq, Prod.mk.injEq] at h
       exact h.2.symm)
    | exact absurd h (by simp)

/-- C10: `fillCanvas` and `setPixel` return the very canvas value they
received as their first argument, and no canvas operation changes a
canvas's width, height, or pixel-array length: creation establishes
`pixels.length = width * height * 4`, every successful `fillCanvas` and
`setPixel` call preserves every canvas's width, height and pixel-array
length, and the dimension readers leave the state untouched. -/
theorem c10_canvas_value_and_dims (w h : Q) (cd : CanvasData) (st st2 : EvalState)
    (idx : Nat) (args : List Value) (thisArg : Option Value) (v : Value) :
    (makeCanvas w h = .ok cd → cd.pixels.length = cd.width * cd.height * 4)
    ∧ (callNative .fillCanvasFn (.canvasV idx :: args) none st = .ok (v, st2) →
      v = .canvasV idx
      ∧ st2.canvases.map (fun c => (c.width, c.height, c.pixels.length)) =
        st.canvases.map (fun c => (c.width, c.height, c.pixels.length)))
    ∧ (callNative .setPixelFn (.canvasV idx :: args) none st = .ok (v, st2) →
      v = .canvasV idx
      ∧ st2.canvases.map (fun c => (c.width, c.height, c.pixels.length)) =
        st.canvases.map (fun c => (c.width, c.height, c.pixels.length)))
    ∧ (callNative .canvasWidthFn args thisArg st = .ok (v, st2) → st2 = st)
    ∧ (callNative .canvasHeightFn args thisArg st = .ok (v, st2) → st2 = st) :=
  ⟨makeCanvas_pixels_length w h cd,
    fillCanvas_preserves_dims st idx args v st2,
    setPixel_preserves_dims st idx args v st2,
    canvasWidth_pure args thisArg st v st2,
    canvasHeight_pure args thisArg st v st2⟩

/-- Witness for C10 on a 1-by-1 canvas: creation, a fill with 5/6/7, a
pixel write with the same channels, and the width reader all preserve the
dimensions and return the received canvas value. -/
theorem c10_witness :
    ((⟨1, 1, mkPixels 4⟩ : CanvasData).pixels.length = 1 * 1 * 4)
    ∧ (Value.canvasV 0 = Value.canvasV 0
      ∧ (⟨[], [⟨1, 1, [5, 6, 7, 255]⟩], []⟩ : EvalState).canvases.map
          (fun c => (c.width, c.height, c.pixels.length)) =
        stC.canvases.map (fun c => (c.width, c.height, c.pixels.length)))
    ∧ (Value.canvasV 0 = Value.canvasV 0
      ∧ (⟨[], [⟨1, 1, [5, 6, 7, 255]⟩], []⟩ : EvalState).canvases.map
          (fun c => (c.width, c.height, c.pixels.length)) =
        stC.canvases.map (fun c => (c.width, c.height, c.pixels.length)))
    ∧ stC = stC :=
  ⟨(c10_canvas_value_and_dims ⟨1, 1⟩ ⟨1, 1⟩ ⟨1, 1, mkPixels 4⟩ stC stC 0 []
      none (.canvasV 0)).1 rfl,
    (c10_canvas_value_and_dims ⟨1, 1⟩ ⟨1, 1⟩ ⟨1, 1, mkPixels 4⟩ stC
      ⟨[], [⟨1, 1, [5, 6, 7, 255]⟩], []⟩ 0
      [.number ⟨5, 1⟩, .number ⟨6, 1⟩, .number ⟨7, 1⟩] none (.canvasV 0)).2.1 rfl,
    (c10_canvas_value_and_dims ⟨1, 1⟩ ⟨1, 1⟩ ⟨1, 1, mkPixels 4⟩ stC
      ⟨[], [⟨1, 1, [5, 6, 7, 255]⟩], []⟩ 0
      [.number ⟨0, 1⟩, .number ⟨0, 1⟩, .number ⟨5, 1⟩, .number ⟨6, 1⟩,
        .number ⟨7, 1⟩] none (.canvasV 0)).2.2.1 rfl,
    (c10_canvas_value_and_dims ⟨1, 1⟩ ⟨1, 1⟩ ⟨1, 1, mkPixels 4⟩ stC stC 0
      [.canvasV 0] none (.number ⟨1, 1⟩)).2.2.2.1 rfl⟩

/-- C9 counterexample: on the token run `( , ) =>` the scan commits to a
Function expression (and the parser then demands a parameter name at the
comma), although a lone comma between the parentheses is not a flat
comma-separated run of identifier tokens. -/
theorem c9_lambda_scan_counterexample :
    (isFunctionSignature ⟨[⟨.lparen, "", 0⟩, ⟨.comma, "", 0⟩, ⟨.rparen, "", 0⟩,
        ⟨.arrow, "", 0⟩, ⟨.eof, "", 0⟩], 0⟩).1 = true
    ∧ claimSigSpec [⟨.lparen, "", 0⟩, ⟨.comma, "", 0⟩, ⟨.rparen, "", 0⟩,
        ⟨.arrow, "", 0⟩, ⟨.eof, "", 0⟩] = false
    ∧ parse "(,) => 1" = .error "Expected parameter name" :=
  ⟨rfl, rfl, rfl⟩

theorem isFnSigScan_depth1 : ∀ ts ep, isFnSigScan ts 1 ep = scanSpec ts ep := by
  intro ts
  induction ts with
  | nil => intro ep; rfl
  | cons t rest ih =>
    intro ep
    obtain ⟨tt, tv, tp⟩ := t
    cases tt <;> simp [isFnSigScan, scanSpec, ih]

/-- C9 (amended): on `(`, the parser commits to a Function expression
exactly when the non-consuming forward scan sees a run of identifier and
comma tokens with no two identifiers adjacent (so leading, trailing or
repeated commas are also accepted; any nested `(` aborts the scan),
closed by `)` immediately followed by `=>`; otherwise it parses the
enclosed expression and requires a matching `)`; the scan leaves the
cursor unchanged. -/
theorem c9_lambda_lookahead (c : Cursor) :
    (isFunctionSignature c).2 = c
    ∧ ((isFunctionSignature c).1 = true ↔
        c.checkT .lparen = true
        ∧ scanSpec (c.tokens.drop (c.position + 1)) true = true)
    ∧ parse "(a, b) => a" =
      .ok [.exprS (.fnE ["a", "b"] (.mk [.exprS (.identE "a")] false))]
    ∧ parse "(1 plus 2)" =
      .ok [.exprS (.infixOp "plus" (.num ⟨1, 1⟩) (.num ⟨2, 1⟩))] := by
  refine ⟨?_, ?_, rfl, rfl⟩
  · cases hb : c.checkT .lparen <;> simp [isFunctionSignature, hb]
  · cases hb : c.checkT .lparen
    · simp [isFunctionSignature, hb]
    · have hlt : c.position < c.tokens.length := by
        by_contra hge
        have hnone : c.tokens[c.position]? = none :=
          List.getElem?_eq_none (Nat.le_of_not_lt hge)
        simp [Cursor.checkT, Cursor.current, List.getD, hnone, eofFallback] at hb
      have htype : c.current.type = .lparen := by
        simpa [Cursor.checkT] using hb
      have hdrop : c.tokens.drop c.position =
          c.current :: c.tokens.drop (c.position + 1) := by
        rw [List.drop_eq_getElem_cons hlt]
        congr 1
        simp [Cursor.current, List.getD, List.getElem?_eq_getElem hlt]
      simp only [isFunctionSignature, hb, if_true]
      rw [hdrop]
      simp only [isFnSigScan, htype]
      norm_num
      rw [isFnSigScan_depth1]

/-- Witness for C9 (amended), on the token sequences of `(a, b) => a` and
of the counterexample `(,) => 1`. -/
theorem c9_witness :
    ((isFunctionSignature ⟨[⟨.lparen, "", 0⟩, ⟨.identifier, "a", 0⟩,
        ⟨.comma, "", 0⟩, ⟨.identifier, "b", 0⟩, ⟨.rparen, "", 0⟩,
        ⟨.arrow, "", 0⟩, ⟨.identifier, "a", 0⟩, ⟨.eof, "", 0⟩], 0⟩).2 =
      ⟨[⟨.lparen, "", 0⟩, ⟨.identifier, "a", 0⟩, ⟨.comma, "", 0⟩,
        ⟨.identifier, "b", 0⟩, ⟨.rparen, "", 0⟩, ⟨.arrow, "", 0⟩,
        ⟨.identifier, "a", 0⟩, ⟨.eof, "", 0⟩], 0⟩)
    ∧ parse "(a, b) => a" =
      .ok [.exprS (.fnE ["a", "b"] (.mk [.exprS (.identE "a")] false))]
    ∧ parse "(1 plus 2)" =
      .ok [.exprS (.infixOp "plus" (.num ⟨1, 1⟩) (.num ⟨2, 1⟩))] :=
  let h := c9_lambda_lookahead ⟨[⟨.lparen, "", 0⟩, ⟨.identifier, "a", 0⟩,
    ⟨.comma, "", 0⟩, ⟨.identifier, "b", 0⟩, ⟨.rparen, "", 0⟩, ⟨.arrow, "", 0⟩,
    ⟨.identifier, "a", 0⟩, ⟨.eof, "", 0⟩], 0⟩
  ⟨h.1, h.2.2.1, h.2.2.2⟩
